import Mathlib

/-! Snowflake identifier generator (`snowflake.go`)

A shallow embedding of the Go package `snowflake_go`.

* Go `int64` values are Lean integers; every operation that can leave the
  range `[-2^63, 2^63)` is wrapped back into it (`wrap64`), and the bitwise
  operators act on the 64-bit two's-complement bit pattern.
* The package-level variables `lastTimeStamp` and `sequence` are the record
  `Shared`, passed explicitly.
* `time.Now().UnixMilli()` is an oracle: the clock is the list of readings
  that successive calls return.  A call that needs more readings than the
  list holds has not returned (`none`).
* The mutex `mu` serialises the calls; the embedding describes one call at a
  time.
-/

namespace SnowflakeGo

/-! ## int64 arithmetic -/

/-- The 64-bit two's-complement bit pattern of an integer. -/
def toU64 (x : Int) : Nat := (x % ((2 ^ 64 : Nat) : Int)).toNat

/-- The signed value of a 64-bit pattern. -/
def ofU64 (n : Nat) : Int :=
  if n % 2 ^ 64 < 2 ^ 63 then ((n % 2 ^ 64 : Nat) : Int)
  else ((n % 2 ^ 64 : Nat) : Int) - ((2 ^ 64 : Nat) : Int)

/-- Reduction of an integer into the `int64` range, modulo `2^64`. -/
def wrap64 (x : Int) : Int := ofU64 (toU64 x)

/-- Go `a + b` on `int64`. -/
def add64 (a b : Int) : Int := wrap64 (a + b)

/-- Go `a - b` on `int64`. -/
def sub64 (a b : Int) : Int := wrap64 (a - b)

/-- Go `a << n` on `int64` (a negative count panics in Go; the counts of this
package are the positive layout constants). -/
def shl64 (a n : Int) : Int := wrap64 (a * ((2 ^ n.toNat : Nat) : Int))

/-- Go `a >> n` on `int64`: the arithmetic right shift. -/
def shr64 (a n : Int) : Int := a / ((2 ^ n.toNat : Nat) : Int)

/-- Go `a | b` on `int64`. -/
def or64 (a b : Int) : Int := ofU64 (toU64 a ||| toU64 b)

/-- Go `a & b` on `int64`. -/
def and64 (a b : Int) : Int := ofU64 (toU64 a &&& toU64 b)

/-- Go `a ^ b` on `int64`. -/
def xor64 (a b : Int) : Int := ofU64 (toU64 a ^^^ toU64 b)

/-- Membership in the `int64` range. -/
def isInt64 (x : Int) : Prop := -((2 ^ 63 : Nat) : Int) ≤ x ∧ x < ((2 ^ 63 : Nat) : Int)

instance (x : Int) : Decidable (isInt64 x) := by
  unfold isInt64; infer_instance

/-! ## Package-level constants -/

/-- Initial timestamp (the source comment reads "2024-01-01 00:00:00"). -/
def initialTimestamp : Int := 1704038400000

/-- Number of bits of the worker id. -/
def workerIdBits : Int := 5

/-- Number of bits of the data-centre id. -/
def dataCenterIdBits : Int := 5

/-- Number of bits of the sequence number. -/
def sequenceBits : Int := 12

/-- Largest worker id: `-1 ^ (-1 << workerIdBits)`. -/
def maxWorkerId : Int := xor64 (-1) (shl64 (-1) workerIdBits)

/-- Largest data-centre id: `-1 ^ (-1 << dataCenterIdBits)`. -/
def maxDataCenterId : Int := xor64 (-1) (shl64 (-1) dataCenterIdBits)

/-- Largest sequence number: `-1 ^ (-1 << sequenceBits)`. -/
def maxSequence : Int := xor64 (-1) (shl64 (-1) sequenceBits)

/-- Left shift of the worker id. -/
def workerIdShift : Int := sequenceBits

/-- Left shift of the data-centre id. -/
def dataCenterIdShift : Int := add64 workerIdShift workerIdBits

/-- Left shift of the timestamp. -/
def timestampShift : Int := add64 dataCenterIdShift dataCenterIdBits

/-! ## Data model -/

/-- The three error values the package creates. -/
inductive GoError where
  /-- From `errors.New`: workId or dataCenterId is below 0. -/
  | negativeId : GoError
  /-- From `fmt.Errorf`: workId or dataCenterId is above the two maxima named. -/
  | exceedsMax (maxWorker maxDataCenter : Int) : GoError
  /-- From `errors.New`: the current timestamp is below the last one. -/
  | clockBackwards : GoError
  deriving DecidableEq, Repr

/-- The package-level variables `lastTimeStamp` and `sequence`. -/
structure Shared where
  lastTimeStamp : Int
  sequence : Int
  deriving DecidableEq, Repr

/-- The struct `Snowflake`; `err = none` is Go's `nil`. -/
structure Snowflake where
  workId : Int
  dataCenterId : Int
  err : Option GoError
  deriving DecidableEq, Repr

/-- The package variables at program start (Go zero values). -/
def Shared.init : Shared := { lastTimeStamp := 0, sequence := 0 }

/-! ## Operations -/

/-- Go `GetInstance(workId, dataCenterId)`: a fresh instance, with the error latched
when a coordinate is out of range. -/
def GetInstance (workId dataCenterId : Int) : Snowflake :=
  if workId < 0 ∨ dataCenterId < 0 then
    { workId := 0, dataCenterId := 0, err := some GoError.negativeId }
  else if workId > maxWorkerId ∨ dataCenterId > maxDataCenterId then
    { workId := 0, dataCenterId := 0,
      err := some (GoError.exceedsMax maxWorkerId maxDataCenterId) }
  else
    { workId := workId, dataCenterId := dataCenterId, err := none }

/-- Go `nextMilli`: read the clock until a reading exceeds `lastTimeStamp`;
returns that reading and the readings left. -/
def nextMilli (lastTimeStamp : Int) : List Int → Option (Int × List Int)
  | [] => none
  | r :: rest =>
    if r ≤ lastTimeStamp then nextMilli lastTimeStamp rest else some (r, rest)

/-- The identifier expression returned by `GetNextId`:
`((currentMilli - initialTimestamp) << timestampShift) |
 (s.dataCenterId << dataCenterIdShift) | (s.workId << workerIdShift) | sequence`. -/
def assemble (currentMilli : Int) (s : Snowflake) (sequence : Int) : Int :=
  or64 (or64 (or64 (shl64 (sub64 currentMilli initialTimestamp) timestampShift)
    (shl64 s.dataCenterId dataCenterIdShift)) (shl64 s.workId workerIdShift)) sequence

/-- What one `GetNextId` call leaves behind: the two return values, the
receiver, the package variables and the clock readings not yet consumed. -/
structure Outcome where
  nextId : Int
  err : Option GoError
  inst : Snowflake
  shared : Shared
  clock : List Int
  deriving DecidableEq, Repr

/-- Go `(s *Snowflake) GetNextId()`. -/
def GetNextId (s : Snowflake) (g : Shared) (clock : List Int) : Option Outcome :=
  match s.err with
  | some e => some { nextId := 0, err := some e, inst := s, shared := g, clock := clock }
  | none =>
    match clock with
    | [] => none
    | currentMilli :: clock1 =>
      if currentMilli < g.lastTimeStamp then
        some { nextId := 0, err := some GoError.clockBackwards,
               inst := { s with err := some GoError.clockBackwards },
               shared := g, clock := clock1 }
      else if currentMilli = g.lastTimeStamp then
        let sequence := and64 (add64 g.sequence 1) maxSequence
        if sequence = 0 then
          match nextMilli g.lastTimeStamp clock1 with
          | none => none
          | some (m, clock2) =>
            some { nextId := assemble m s sequence, err := none, inst := s,
                   shared := { lastTimeStamp := m, sequence := sequence }, clock := clock2 }
        else
          some { nextId := assemble currentMilli s sequence, err := none, inst := s,
                 shared := { lastTimeStamp := currentMilli, sequence := sequence },
                 clock := clock1 }
      else
        some { nextId := assemble currentMilli s 0, err := none, inst := s,
               shared := { lastTimeStamp := currentMilli, sequence := 0 }, clock := clock1 }

/-- A sequence of `GetNextId` calls, each on the instance at the given
address of the store `insts`; the outcomes of the calls that returned, in
order (the run stops at a call that does not return). -/
def runCalls (insts : Nat → Snowflake) (g : Shared) (clock : List Int) : List Nat → List Outcome
  | [] => []
  | i :: rest =>
    match GetNextId (insts i) g clock with
    | none => []
    | some out =>
      out :: runCalls (Function.update insts i out.inst) out.shared out.clock rest

/-- What a caller and the package see of a call: the two return values and the
package variables it leaves. -/
def Outcome.view (o : Outcome) : Int × Option GoError × Shared := (o.nextId, o.err, o.shared)

/-! ## Vocabulary of the specification -/

/-- The clock reading `r` lies in the 41-bit window after `initialTimestamp`:
`0 <= r - 1704038400000 < 2^41`. -/
def inWindow (r : Int) : Prop := 0 ≤ r - initialTimestamp ∧ r - initialTimestamp < 2 ^ 41

instance (r : Int) : Decidable (inWindow r) := by
  unfold inWindow; infer_instance

/-- A valid instance: no latched error, both stored coordinates in `[0, 31]`. -/
def Snowflake.valid (s : Snowflake) : Prop :=
  s.err = none ∧ 0 ≤ s.workId ∧ s.workId ≤ 31 ∧ 0 ≤ s.dataCenterId ∧ s.dataCenterId ≤ 31

instance (s : Snowflake) : Decidable s.valid := by
  unfold Snowflake.valid; infer_instance

/-- The coordinates of an instance as one number, data centre above worker,
in the order the identifier holds them. -/
def Snowflake.coords (s : Snowflake) : Int := s.dataCenterId * 32 + s.workId

/-- An instance as the package can hold it: either an error is latched or the
coordinates are in `[0, 31]`. -/
def Snowflake.wellFormed (s : Snowflake) : Prop :=
  s.err = none → 0 ≤ s.workId ∧ s.workId ≤ 31 ∧ 0 ≤ s.dataCenterId ∧ s.dataCenterId ≤ 31

/-- Lexicographic order on `(lastTimeStamp, sequence)`. -/
def Shared.lt (a b : Shared) : Prop :=
  a.lastTimeStamp < b.lastTimeStamp ∨
    (a.lastTimeStamp = b.lastTimeStamp ∧ a.sequence < b.sequence)

instance (a b : Shared) : Decidable (a.lt b) := by
  unfold Shared.lt; infer_instance

/-- The effective clock reading of a call that starts in state `g` with the
readings `clock`: the reading returned by `nextMilli` when the first reading
equals `lastTimeStamp` and the sequence wraps to 0, the first reading otherwise. -/
def effectiveReading (g : Shared) : List Int → Option Int
  | [] => none
  | r :: rest =>
    if r = g.lastTimeStamp ∧ and64 (add64 g.sequence 1) maxSequence = 0 then
      (nextMilli g.lastTimeStamp rest).map (fun p => p.1)
    else some r

/-- The readings suffice for a call that starts in state `g`: there is a first
reading and, when it equals `lastTimeStamp` and the sequence wraps to 0, a later
reading above `lastTimeStamp`, so that the busy-wait finishes. -/
def readingsSuffice (g : Shared) : List Int → Prop
  | [] => False
  | r :: rest =>
    (r = g.lastTimeStamp ∧ and64 (add64 g.sequence 1) maxSequence = 0) →
      ∃ x ∈ rest, g.lastTimeStamp < x

instance (g : Shared) (clock : List Int) : Decidable (readingsSuffice g clock) := by
  cases clock <;> unfold readingsSuffice <;> infer_instance

/-- The readings suffice for every call of a run: for the first call in the
state and clock it starts with, and for each later call in the state and clock
the calls before it left. -/
def readingsSufficeRun (insts : Nat → Snowflake) (g : Shared) (clock : List Int) :
    List Nat → Bool
  | [] => true
  | i :: rest =>
    decide (readingsSuffice g clock) &&
      match GetNextId (insts i) g clock with
      | none => true
      | some out =>
        readingsSufficeRun (Function.update insts i out.inst) out.shared out.clock rest

/-- Reference calendar (not part of the package): the Gregorian leap-year rule. -/
def isLeapYear (y : Nat) : Bool := (y % 4 == 0 && y % 100 != 0) || y % 400 == 0

/-- Reference calendar: the number of days of a Gregorian year. -/
def daysInYear (y : Nat) : Nat := if isLeapYear y then 366 else 365

/-- Reference calendar: days from 1970-01-01 to January 1st of year `y`
(for `y ≥ 1970`). -/
def daysFrom1970 (y : Nat) : Nat :=
  ((List.range (y - 1970)).map (fun k => daysInYear (1970 + k))).sum

/-- Reference calendar: milliseconds from 1970-01-01T00:00:00 UTC to
`y`-01-01T00:00:00 UTC. -/
def unixMilliOfYearStartUTC (y : Nat) : Int := (daysFrom1970 y : Int) * 86400000

/-! ## int64 arithmetic: basic facts -/

theorem toU64_eq (x : Int) : ((toU64 x : Nat) : Int) = x % 18446744073709551616 := by
  unfold toU64
  have h : (0 : Int) ≤ x % ((2 ^ 64 : Nat) : Int) := Int.emod_nonneg _ (by norm_num)
  rw [Int.toNat_of_nonneg h]
  norm_num

theorem toU64_lt (x : Int) : toU64 x < 18446744073709551616 := by
  have h := toU64_eq x
  omega

theorem toU64_of_nonneg (n : Nat) (h : n < 18446744073709551616) : toU64 (n : Int) = n := by
  have h1 := toU64_eq n
  omega

theorem ofU64_of_lt (n : Nat) (h : n < 9223372036854775808) : ofU64 n = (n : Int) := by
  unfold ofU64
  have h1 : n % 2 ^ 64 = n := Nat.mod_eq_of_lt (by omega)
  rw [h1, if_pos (by omega)]

theorem wrap64_of_isInt64 (x : Int) (h : isInt64 x) : wrap64 x = x := by
  unfold isInt64 at h
  unfold wrap64 ofU64
  have h1 := toU64_eq x
  have h2 := toU64_lt x
  have h3 : toU64 x % 2 ^ 64 = toU64 x := Nat.mod_eq_of_lt (by omega)
  rw [h3]
  split_ifs with h4
  · omega
  · push_cast at *
    omega

theorem wrap64_emod (x : Int) : wrap64 x % 18446744073709551616 = x % 18446744073709551616 := by
  unfold wrap64 ofU64
  have h1 := toU64_eq x
  have h2 := toU64_lt x
  have h3 : toU64 x % 2 ^ 64 = toU64 x := Nat.mod_eq_of_lt (by omega)
  rw [h3]
  split_ifs with h4
  · omega
  · push_cast at *
    omega

theorem wrap64_isInt64 (x : Int) : isInt64 (wrap64 x) := by
  unfold isInt64 wrap64 ofU64
  have h2 := toU64_lt x
  have h3 : toU64 x % 2 ^ 64 = toU64 x := Nat.mod_eq_of_lt (by omega)
  rw [h3]
  split_ifs with h4
  · norm_num at *; omega
  · norm_num at *; omega

theorem and64_4095 (x : Int) : and64 x 4095 = x % 4096 := by
  unfold and64
  have h0 : toU64 4095 = 2 ^ 12 - 1 := by decide
  rw [h0, Nat.and_pow_two_sub_one_eq_mod]
  have h1 := toU64_eq x
  have h2 := toU64_lt x
  rw [ofU64_of_lt _ (by omega)]
  omega

theorem and64_31 (x : Int) : and64 x 31 = x % 32 := by
  unfold and64
  have h0 : toU64 31 = 2 ^ 5 - 1 := by decide
  rw [h0, Nat.and_pow_two_sub_one_eq_mod]
  have h1 := toU64_eq x
  have h2 := toU64_lt x
  rw [ofU64_of_lt _ (by omega)]
  omega

theorem maxWorkerId_eq : maxWorkerId = 31 := by decide

theorem maxDataCenterId_eq : maxDataCenterId = 31 := by decide

theorem maxSequence_eq : maxSequence = 4095 := by decide

theorem workerIdShift_eq : workerIdShift = 12 := by decide

theorem dataCenterIdShift_eq : dataCenterIdShift = 17 := by decide

theorem timestampShift_eq : timestampShift = 22 := by decide

/-- The masked increment of `GetNextId` is the successor modulo 4096. -/
theorem next_sequence_eq (seq : Int) : and64 (add64 seq 1) maxSequence = (seq + 1) % 4096 := by
  rw [maxSequence_eq, and64_4095]
  unfold add64
  have h := wrap64_emod (seq + 1)
  omega

/-- Bitwise or of a multiple of `2^k` with a value below `2^k` is their sum. -/
theorem or64_add (a b : Nat) (k : Nat) (hb : b < 2 ^ k)
    (h : 2 ^ k * a + b < 9223372036854775808) :
    or64 ((2 ^ k * a : Nat) : Int) (b : Int) = ((2 ^ k * a + b : Nat) : Int) := by
  unfold or64
  have hk : 0 < 2 ^ k := Nat.pos_pow_of_pos k (by norm_num)
  rw [toU64_of_nonneg _ (by omega), toU64_of_nonneg _ (by omega),
    ← Nat.mul_add_lt_is_or hb, ofU64_of_lt _ h]

/-- In the 41-bit window and with coordinates in `[0, 31]`, the identifier is
the sum of its four shifted fields. -/
theorem assemble_eq (t : Int) (s : Snowflake) (seq : Int)
    (ht0 : 0 ≤ t - initialTimestamp) (ht1 : t - initialTimestamp < 2199023255552)
    (hw0 : 0 ≤ s.workId) (hw1 : s.workId ≤ 31)
    (hd0 : 0 ≤ s.dataCenterId) (hd1 : s.dataCenterId ≤ 31)
    (hs0 : 0 ≤ seq) (hs1 : seq ≤ 4095) :
    assemble t s seq
      = (t - initialTimestamp) * 4194304 + s.dataCenterId * 131072 + s.workId * 4096 + seq := by
  obtain ⟨w, d, e⟩ := s
  simp only at hw0 hw1 hd0 hd1 ⊢
  unfold assemble
  simp only [timestampShift_eq, dataCenterIdShift_eq, workerIdShift_eq]
  unfold sub64 shl64
  rw [wrap64_of_isInt64 (t - initialTimestamp) (by unfold isInt64; norm_num; omega)]
  generalize t - initialTimestamp = off at ht0 ht1 ⊢
  lift off to Nat using ht0
  lift w to Nat using hw0
  lift d to Nat using hd0
  lift seq to Nat using hs0
  have e22 : ((22 : Int)).toNat = 22 := rfl
  have e17 : ((17 : Int)).toNat = 17 := rfl
  have e12 : ((12 : Int)).toNat = 12 := rfl
  rw [e22, e17, e12]
  rw [wrap64_of_isInt64 _ (by unfold isInt64; norm_num; omega),
    wrap64_of_isInt64 _ (by unfold isInt64; norm_num; omega),
    wrap64_of_isInt64 _ (by unfold isInt64; norm_num; omega)]
  have h1 : ((off : Int) * ((2 ^ 22 : Nat) : Int)) = ((2 ^ 22 * off : Nat) : Int) := by
    push_cast; ring
  have h2 : ((d : Int) * ((2 ^ 17 : Nat) : Int)) = ((d * 2 ^ 17 : Nat) : Int) := by
    push_cast; ring
  rw [h1, h2, or64_add _ _ 22 (by norm_num; omega) (by norm_num; omega)]
  have h3 : 2 ^ 22 * off + d * 2 ^ 17 = 2 ^ 17 * (off * 32 + d) := by
    ring
  have h4 : ((w : Int) * ((2 ^ 12 : Nat) : Int)) = ((w * 2 ^ 12 : Nat) : Int) := by
    push_cast; ring
  rw [h3, h4, or64_add _ _ 17 (by norm_num; omega) (by norm_num; omega)]
  have h5 : 2 ^ 17 * (off * 32 + d) + w * 2 ^ 12 = 2 ^ 12 * (off * 1024 + d * 32 + w) := by
    ring
  rw [h5, or64_add _ _ 12 (by norm_num; omega) (by norm_num; omega)]
  push_cast
  ring

/-! ## One call -/

theorem nextMilli_spec (last : Int) (clock : List Int) (m : Int) (rest : List Int)
    (h : nextMilli last clock = some (m, rest)) :
    last < m ∧ ∃ pre, clock = pre ++ m :: rest ∧ ∀ x ∈ pre, x ≤ last := by
  induction clock with
  | nil => simp [nextMilli] at h
  | cons r tl ih =>
    unfold nextMilli at h
    split_ifs at h with hr
    · obtain ⟨h1, pre, h2, h3⟩ := ih h
      refine ⟨h1, r :: pre, by simp [h2], ?_⟩
      intro x hx
      rcases List.mem_cons.mp hx with rfl | hx
      · exact hr
      · exact h3 x hx
    · simp only [Option.some.injEq, Prod.mk.injEq] at h
      obtain ⟨rfl, rfl⟩ := h
      exact ⟨by omega, [], by simp, by simp⟩

theorem nextMilli_skip (last : Int) (pre : List Int) (m : Int) (rest : List Int)
    (hpre : ∀ x ∈ pre, x ≤ last) (hm : last < m) :
    nextMilli last (pre ++ m :: rest) = some (m, rest) := by
  induction pre with
  | nil => simp [nextMilli, hm]
  | cons r tl ih =>
    have h1 : r ≤ last := hpre r (by simp)
    have h2 := ih (fun x hx => hpre x (by simp [hx]))
    simp [nextMilli, h1, h2]

/-- The four ways a call on an instance without latched error returns. -/
theorem GetNextId_cases (s : Snowflake) (g : Shared) (clock : List Int) (out : Outcome)
    (hs : s.err = none) (h : GetNextId s g clock = some out) :
    ∃ r clock1, clock = r :: clock1 ∧
      ((r < g.lastTimeStamp ∧
          out = { nextId := 0, err := some GoError.clockBackwards,
                  inst := { s with err := some GoError.clockBackwards },
                  shared := g, clock := clock1 }) ∨
       (r = g.lastTimeStamp ∧ (g.sequence + 1) % 4096 ≠ 0 ∧
          out = { nextId := assemble r s ((g.sequence + 1) % 4096), err := none, inst := s,
                  shared := { lastTimeStamp := r, sequence := (g.sequence + 1) % 4096 },
                  clock := clock1 }) ∨
       (r = g.lastTimeStamp ∧ (g.sequence + 1) % 4096 = 0 ∧
          ∃ m clock2, nextMilli g.lastTimeStamp clock1 = some (m, clock2) ∧
            out = { nextId := assemble m s 0, err := none, inst := s,
                    shared := { lastTimeStamp := m, sequence := 0 }, clock := clock2 }) ∨
       (g.lastTimeStamp < r ∧
          out = { nextId := assemble r s 0, err := none, inst := s,
                  shared := { lastTimeStamp := r, sequence := 0 }, clock := clock1 })) := by
  unfold GetNextId at h
  rw [hs] at h
  cases clock with
  | nil => simp at h
  | cons r clock1 =>
    refine ⟨r, clock1, rfl, ?_⟩
    simp only [next_sequence_eq] at h
    by_cases h1 : r < g.lastTimeStamp
    · left
      simp only [h1, if_true, Option.some.injEq] at h
      exact ⟨h1, h.symm⟩
    · right
      simp only [h1, if_false] at h
      by_cases h2 : r = g.lastTimeStamp
      · simp only [h2, if_true] at h
        by_cases h3 : (g.sequence + 1) % 4096 = 0
        · right; left
          simp only [h3, if_true] at h
          cases hn : nextMilli g.lastTimeStamp clock1 with
          | none => simp [hn] at h
          | some p =>
            obtain ⟨m, clock2⟩ := p
            simp only [hn, Option.some.injEq] at h
            exact ⟨h2, h3, m, clock2, rfl, h.symm⟩
        · left
          simp only [h3, if_false, Option.some.injEq] at h
          exact ⟨h2, h3, by rw [h2]; exact h.symm⟩
      · right; right
        simp only [h2, if_false, Option.some.injEq] at h
        exact ⟨by omega, h.symm⟩

theorem GetNextId_latched (s : Snowflake) (g : Shared) (clock : List Int) (e : GoError)
    (hs : s.err = some e) :
    GetNextId s g clock
      = some { nextId := 0, err := some e, inst := s, shared := g, clock := clock } := by
  unfold GetNextId
  rw [hs]

theorem GetInstance_wellFormed (workId dataCenterId : Int) :
    (GetInstance workId dataCenterId).wellFormed := by
  unfold GetInstance Snowflake.wellFormed
  rw [maxWorkerId_eq, maxDataCenterId_eq]
  split_ifs with h1 h2
  · simp
  · simp
  · intro _
    simp only
    omega

theorem GetInstance_err_iff (workId dataCenterId : Int) :
    (GetInstance workId dataCenterId).err ≠ none ↔
      (workId < 0 ∨ dataCenterId < 0 ∨ workId > 31 ∨ dataCenterId > 31) := by
  unfold GetInstance
  rw [maxWorkerId_eq, maxDataCenterId_eq]
  split_ifs with h1 h2
  · simp only [ne_eq, reduceCtorEq, not_false_eq_true, true_iff]
    omega
  · simp only [ne_eq, reduceCtorEq, not_false_eq_true, true_iff]
    omega
  · simp only [ne_eq, not_true_eq_false, false_iff]
    omega

/-- What every returning call preserves, and what a successful one yields. -/
theorem GetNextId_step (s : Snowflake) (g : Shared) (clock : List Int) (out : Outcome)
    (hwf : s.wellFormed) (hg0 : 0 ≤ g.sequence) (hg1 : g.sequence ≤ 4095)
    (h : GetNextId s g clock = some out) :
    out.inst.wellFormed ∧ (∀ r ∈ out.clock, r ∈ clock) ∧
      0 ≤ out.shared.sequence ∧ out.shared.sequence ≤ 4095 ∧
      (out.err ≠ none → out.shared = g) ∧
      (out.err = none → out.inst = s ∧ s.err = none ∧ out.shared.lastTimeStamp ∈ clock ∧
        g.lt out.shared ∧
        out.nextId = assemble out.shared.lastTimeStamp s out.shared.sequence) := by
  cases hs : s.err with
  | some e =>
    rw [GetNextId_latched s g clock e hs] at h
    simp only [Option.some.injEq] at h
    subst h
    simp [hwf, hg0, hg1]
  | none =>
    obtain ⟨r, clock1, rfl, hc⟩ := GetNextId_cases s g _ out hs h
    rcases hc with ⟨_, rfl⟩ | ⟨h1, h2, rfl⟩ | ⟨h1, h2, m, clock2, h3, rfl⟩ | ⟨h1, rfl⟩
    · simp [Snowflake.wellFormed, hg0, hg1]
      intro x hx
      exact Or.inr hx
    · refine ⟨hwf, fun x hx => by simp [hx], by simp only; omega, by simp only; omega,
        by simp, fun _ => ⟨rfl, rfl, by simp, ?_, rfl⟩⟩
      right
      simp only
      constructor
      · omega
      · omega
    · obtain ⟨h4, pre, h5, _⟩ := nextMilli_spec _ _ _ _ h3
      refine ⟨hwf, fun x hx => by simp [h5, hx], by simp, by simp,
        by simp, fun _ => ⟨rfl, rfl, by simp [h5], Or.inl h4, rfl⟩⟩
    · refine ⟨hwf, fun x hx => by simp [hx], by simp, by simp,
        by simp, fun _ => ⟨rfl, rfl, by simp, Or.inl h1, rfl⟩⟩

/-- What a successful call yields, for every package state. -/
theorem GetNextId_success (s : Snowflake) (g : Shared) (clock : List Int) (out : Outcome)
    (h : GetNextId s g clock = some out) (hok : out.err = none) :
    s.err = none ∧ out.inst = s ∧ out.shared.lastTimeStamp ∈ clock ∧
      0 ≤ out.shared.sequence ∧ out.shared.sequence ≤ 4095 ∧
      out.nextId = assemble out.shared.lastTimeStamp s out.shared.sequence ∧
      (g.lastTimeStamp < out.shared.lastTimeStamp ∨
        (out.shared.lastTimeStamp = g.lastTimeStamp ∧
          out.shared.sequence = (g.sequence + 1) % 4096 ∧ out.shared.sequence ≠ 0)) := by
  cases hs : s.err with
  | some e =>
    rw [GetNextId_latched s g clock e hs] at h
    simp only [Option.some.injEq] at h
    subst h
    simp at hok
  | none =>
    obtain ⟨r, clock1, rfl, hc⟩ := GetNextId_cases s g _ out hs h
    rcases hc with ⟨_, rfl⟩ | ⟨h1, h2, rfl⟩ | ⟨h1, h2, m, clock2, h3, rfl⟩ | ⟨h1, rfl⟩
    · simp at hok
    · refine ⟨rfl, rfl, by simp, by simp only; omega, by simp only; omega, rfl,
        Or.inr ⟨h1, rfl, h2⟩⟩
    · obtain ⟨h4, pre, h5, _⟩ := nextMilli_spec _ _ _ _ h3
      exact ⟨rfl, rfl, by simp [h5], by simp, by simp, rfl, Or.inl h4⟩
    · exact ⟨rfl, rfl, by simp, by simp, by simp, rfl, Or.inl h1⟩

/-- A successful call made inside the window returns the sum of the shifted
fields of the state it leaves. -/
theorem nextId_eq_sum (s : Snowflake) (g : Shared) (clock : List Int) (out : Outcome)
    (hwf : s.wellFormed) (h : GetNextId s g clock = some out) (hok : out.err = none)
    (hwin : inWindow out.shared.lastTimeStamp) :
    out.nextId = (out.shared.lastTimeStamp - initialTimestamp) * 4194304
      + out.inst.coords * 4096 + out.shared.sequence ∧
    0 ≤ out.inst.coords ∧ out.inst.coords ≤ 1023 := by
  obtain ⟨h4, h3, _, h0, h1, h5, _⟩ := GetNextId_success s g clock out h hok
  obtain ⟨c1, c2, c3, c4⟩ := hwf h4
  unfold inWindow at hwin
  rw [h5, h3, assemble_eq _ _ _ hwin.1 (by have := hwin.2; norm_num at this; exact this)
    c1 c2 c3 c4 h0 h1]
  unfold Snowflake.coords
  refine ⟨by ring, by omega, by omega⟩

theorem shr64_22 (x : Int) : shr64 x 22 = x / 4194304 := by
  have e : (22 : Int).toNat = 22 := rfl
  unfold shr64
  rw [e]
  norm_num

theorem shr64_17 (x : Int) : shr64 x 17 = x / 131072 := by
  have e : (17 : Int).toNat = 17 := rfl
  unfold shr64
  rw [e]
  norm_num

theorem shr64_12 (x : Int) : shr64 x 12 = x / 4096 := by
  have e : (12 : Int).toNat = 12 := rfl
  unfold shr64
  rw [e]
  norm_num

theorem valid_wellFormed (s : Snowflake) (h : s.valid) : s.wellFormed :=
  fun _ => h.2

theorem GetNextId_clock_suffix (s : Snowflake) (g : Shared) (clock : List Int) (out : Outcome)
    (h : GetNextId s g clock = some out) : ∃ pre, clock = pre ++ out.clock := by
  cases hs : s.err with
  | some e =>
    rw [GetNextId_latched s g clock e hs] at h
    simp only [Option.some.injEq] at h
    subst h
    exact ⟨[], rfl⟩
  | none =>
    obtain ⟨r, clock1, rfl, hc⟩ := GetNextId_cases s g _ out hs h
    rcases hc with ⟨_, rfl⟩ | ⟨_, _, rfl⟩ | ⟨_, _, m, clock2, h3, rfl⟩ | ⟨_, rfl⟩
    · exact ⟨[r], rfl⟩
    · exact ⟨[r], rfl⟩
    · obtain ⟨_, pre, h5, _⟩ := nextMilli_spec _ _ _ _ h3
      exact ⟨r :: (pre ++ [m]), by simp [h5]⟩
    · exact ⟨[r], rfl⟩

/-- A successful call stamps the last reading it consumed. -/
theorem GetNextId_success_clock (s : Snowflake) (g : Shared) (clock : List Int) (out : Outcome)
    (h : GetNextId s g clock = some out) (hok : out.err = none) :
    ∃ pre, clock = pre ++ out.shared.lastTimeStamp :: out.clock := by
  cases hs : s.err with
  | some e =>
    rw [GetNextId_latched s g clock e hs] at h
    simp only [Option.some.injEq] at h
    subst h
    simp at hok
  | none =>
    obtain ⟨r, clock1, rfl, hc⟩ := GetNextId_cases s g _ out hs h
    rcases hc with ⟨_, rfl⟩ | ⟨_, _, rfl⟩ | ⟨_, _, m, clock2, h3, rfl⟩ | ⟨_, rfl⟩
    · simp at hok
    · exact ⟨[], rfl⟩
    · obtain ⟨_, pre, h5, _⟩ := nextMilli_spec _ _ _ _ h3
      exact ⟨r :: pre, by simp [h5]⟩
    · exact ⟨[], rfl⟩

/-- A returning call on an instance without latched error fails exactly when
its first reading is below `lastTimeStamp`. -/
theorem GetNextId_err_iff (s : Snowflake) (g : Shared) (r : Int) (rest : List Int)
    (out : Outcome) (hs : s.err = none) (h : GetNextId s g (r :: rest) = some out) :
    out.err ≠ none ↔ r < g.lastTimeStamp := by
  obtain ⟨r1, clock1, he, hc⟩ := GetNextId_cases s g _ out hs h
  simp only [List.cons.injEq] at he
  obtain ⟨rfl, rfl⟩ := he
  rcases hc with ⟨h1, rfl⟩ | ⟨h1, _, rfl⟩ | ⟨h1, _, m, clock2, _, rfl⟩ | ⟨h1, rfl⟩
  · simp [h1]
  · simp [h1]
  · simp [h1]
  · simp only [ne_eq, not_true_eq_false, false_iff]
    omega

/-! ## Runs of calls -/

theorem update_wellFormed (insts : Nat → Snowflake) (i : Nat) (s : Snowflake)
    (h : ∀ k, (insts k).wellFormed) (hs : s.wellFormed) :
    ∀ k, (Function.update insts i s k).wellFormed := by
  intro k
  by_cases hk : k = i
  · subst hk
    simpa using hs
  · simpa [Function.update_noteq hk] using h k

/-- Every successful outcome of a run lies strictly above the state the run
started from, inside the window, and its identifier is the sum of its fields. -/
theorem runCalls_mem (calls : List Nat) :
    ∀ (insts : Nat → Snowflake) (g : Shared) (clock : List Int),
      (∀ k, (insts k).wellFormed) → (∀ r ∈ clock, inWindow r) →
      0 ≤ g.sequence → g.sequence ≤ 4095 →
      ∀ o ∈ runCalls insts g clock calls, o.err = none →
        g.lt o.shared ∧ inWindow o.shared.lastTimeStamp ∧
        0 ≤ o.shared.sequence ∧ o.shared.sequence ≤ 4095 ∧
        o.nextId = (o.shared.lastTimeStamp - initialTimestamp) * 4194304
          + o.inst.coords * 4096 + o.shared.sequence ∧
        0 ≤ o.inst.coords ∧ o.inst.coords ≤ 1023 := by
  induction calls with
  | nil => intro insts g clock _ _ _ _ o ho; simp [runCalls] at ho
  | cons i rest ih =>
    intro insts g clock hwf hclock hg0 hg1 o ho hok
    unfold runCalls at ho
    cases h : GetNextId (insts i) g clock with
    | none => simp [h] at ho
    | some out =>
      simp only [h, List.mem_cons] at ho
      obtain ⟨s1, s2, s3, s4, s5, s6⟩ := GetNextId_step _ g clock out (hwf i) hg0 hg1 h
      rcases ho with rfl | ho
      · obtain ⟨_, _, t3, t4, _⟩ := s6 hok
        have hw := hclock _ t3
        obtain ⟨u1, u2, u3⟩ := nextId_eq_sum _ g clock o (hwf i) h hok hw
        exact ⟨t4, hw, s3, s4, u1, u2, u3⟩
      · obtain ⟨v1, v2⟩ := ih (Function.update insts i out.inst) out.shared out.clock
          (update_wellFormed insts i out.inst hwf s1) (fun r hr => hclock r (s2 r hr))
          s3 s4 o ho hok
        refine ⟨?_, v2⟩
        by_cases he : out.err = none
        · obtain ⟨_, _, _, t4, _⟩ := s6 he
          unfold Shared.lt at *
          omega
        · rw [← s5 he]
          exact v1

/-- Successful outcomes of a run carry pairwise different identifiers. -/
theorem runCalls_pairwise (calls : List Nat) :
    ∀ (insts : Nat → Snowflake) (g : Shared) (clock : List Int),
      (∀ k, (insts k).wellFormed) → (∀ r ∈ clock, inWindow r) →
      0 ≤ g.sequence → g.sequence ≤ 4095 →
      List.Pairwise (fun a b : Outcome => a.err = none → b.err = none → a.nextId ≠ b.nextId)
        (runCalls insts g clock calls) := by
  induction calls with
  | nil => intro insts g clock _ _ _ _; simp [runCalls]
  | cons i rest ih =>
    intro insts g clock hwf hclock hg0 hg1
    unfold runCalls
    cases h : GetNextId (insts i) g clock with
    | none => simp
    | some out =>
      simp only
      obtain ⟨s1, s2, s3, s4, s5, s6⟩ := GetNextId_step _ g clock out (hwf i) hg0 hg1 h
      have hwf2 := update_wellFormed insts i out.inst hwf s1
      have hclock2 : ∀ r ∈ out.clock, inWindow r := fun r hr => hclock r (s2 r hr)
      refine List.Pairwise.cons ?_ (ih _ out.shared out.clock hwf2 hclock2 s3 s4)
      intro o ho hok1 hok2
      obtain ⟨v1, v2, v3, v4, v5, v6, v7⟩ :=
        runCalls_mem rest _ out.shared out.clock hwf2 hclock2 s3 s4 o ho hok2
      obtain ⟨_, _, t3, _, _⟩ := s6 hok1
      obtain ⟨u1, u2, u3⟩ := nextId_eq_sum _ g clock out (hwf i) h hok1 (hclock _ t3)
      have hw := hclock _ t3
      unfold inWindow at hw v2
      unfold Shared.lt at v1
      rw [u1, v5]
      omega

/-- Under a non-decreasing clock that starts at or after `lastTimeStamp`, no
call of a run on instances without latched error fails. -/
theorem runCalls_no_error (calls : List Nat) :
    ∀ (insts : Nat → Snowflake) (g : Shared) (clock : List Int),
      (∀ k, (insts k).err = none) → List.Pairwise (fun a b : Int => a ≤ b) clock →
      (∀ r ∈ clock, g.lastTimeStamp ≤ r) →
      ∀ o ∈ runCalls insts g clock calls, o.err = none := by
  induction calls with
  | nil => intro insts g clock _ _ _ o ho; simp [runCalls] at ho
  | cons i rest ih =>
    intro insts g clock hins hsorted hlast o ho
    unfold runCalls at ho
    cases h : GetNextId (insts i) g clock with
    | none => simp [h] at ho
    | some out =>
      simp only [h, List.mem_cons] at ho
      have hok : out.err = none := by
        cases clock with
        | nil => simp [GetNextId, hins i] at h
        | cons r tl =>
          by_contra hne
          have := (GetNextId_err_iff _ g r tl out (hins i) h).mp hne
          have := hlast r (by simp)
          omega
      rcases ho with rfl | ho
      · exact hok
      · obtain ⟨_, h2, _⟩ := GetNextId_success _ g clock out h hok
        obtain ⟨pre, hpre⟩ := GetNextId_success_clock _ g clock out h hok
        rw [hpre, List.pairwise_append, List.pairwise_cons] at hsorted
        refine ih (Function.update insts i out.inst) out.shared out.clock ?_
          hsorted.2.1.2 hsorted.2.1.1 o ho
        intro k
        by_cases hk : k = i
        · subst hk
          simpa [h2] using hins k
        · simpa [Function.update_noteq hk] using hins k

/-! ## Sequence rollover -/

theorem GetNextId_new (s : Snowflake) (g : Shared) (r : Int) (clock1 : List Int)
    (hs : s.err = none) (hr : g.lastTimeStamp < r) :
    GetNextId s g (r :: clock1)
      = some { nextId := assemble r s 0, err := none, inst := s,
               shared := { lastTimeStamp := r, sequence := 0 }, clock := clock1 } := by
  unfold GetNextId
  rw [hs]
  have h1 : ¬ r < g.lastTimeStamp := by omega
  have h2 : ¬ r = g.lastTimeStamp := by omega
  simp only [h1, h2, if_false]

theorem GetNextId_same (s : Snowflake) (t j : Int) (clock1 : List Int)
    (hs : s.err = none) (hj0 : 0 ≤ j) (hj1 : j < 4095) :
    GetNextId s { lastTimeStamp := t, sequence := j } (t :: clock1)
      = some { nextId := assemble t s (j + 1), err := none, inst := s,
               shared := { lastTimeStamp := t, sequence := j + 1 }, clock := clock1 } := by
  unfold GetNextId
  rw [hs]
  have h3 : (j + 1) % 4096 = j + 1 := by omega
  have h4 : ¬ (j + 1 = 0) := by omega
  simp only [next_sequence_eq, lt_self_iff_false, if_false, if_true, h3, h4]

theorem GetNextId_wrap (s : Snowflake) (t m : Int) (clock1 clock2 : List Int)
    (hs : s.err = none) (hn : nextMilli t clock1 = some (m, clock2)) :
    GetNextId s { lastTimeStamp := t, sequence := 4095 } (t :: clock1)
      = some { nextId := assemble m s 0, err := none, inst := s,
               shared := { lastTimeStamp := m, sequence := 0 }, clock := clock2 } := by
  unfold GetNextId
  rw [hs]
  have h3 : ((4095 : Int) + 1) % 4096 = 0 := by decide
  simp only [next_sequence_eq, lt_self_iff_false, if_false, if_true, h3, hn]

/-- The trace of `n` further calls in the millisecond `t`, while the budget lasts. -/
theorem runCalls_same_milli (s : Snowflake) (hs : s.err = none) (t : Int) (i : Nat)
    (rest : List Int) (more : List Nat) :
    ∀ (n : Nat) (j : Int) (insts : Nat → Snowflake), insts i = s → 0 ≤ j → j + n ≤ 4095 →
      (runCalls insts { lastTimeStamp := t, sequence := j } (List.replicate n t ++ rest)
          (List.replicate n i ++ more)).map Outcome.view
        = (List.range n).map (fun k : Nat =>
            (assemble t s (j + 1 + k), (none : Option GoError),
              ({ lastTimeStamp := t, sequence := j + 1 + k } : Shared)))
          ++ (runCalls insts { lastTimeStamp := t, sequence := j + n } rest more).map
              Outcome.view := by
  intro n
  induction n with
  | zero =>
    intro j insts _ _ _
    simp
  | succ n ih =>
    intro j insts hi hj0 hj1
    push_cast at hj1
    rw [List.replicate_succ, List.replicate_succ, List.cons_append, List.cons_append,
      runCalls, hi, GetNextId_same s t j _ hs hj0 (by omega)]
    simp only
    rw [← hi, Function.update_eq_self, List.map_cons, ih (j + 1) insts hi (by omega) (by omega),
      List.range_succ_eq_map, List.map_cons, List.map_map, hi]
    have e1 : j + 1 + ((n : Int)) = j + ((n + 1 : Nat) : Int) := by push_cast; ring
    rw [e1]
    simp only [Outcome.view, List.cons_append, Nat.cast_zero, add_zero]
    congr 2
    apply List.map_congr_left
    intro k _
    simp only [Function.comp, Nat.succ_eq_add_one, Nat.cast_add, Nat.cast_one]
    have e2 : j + 1 + 1 + (k : Int) = j + 1 + ((k : Int) + 1) := by ring
    rw [e2]

/-- The trace of 4097 calls reading the same new millisecond `t`, the last of
which waits for the first reading `t'` above `t`. -/
theorem rollover_trace (s : Snowflake) (hs : s.err = none) (g : Shared) (t t' : Int)
    (pre post : List Int) (insts : Nat → Snowflake) (i : Nat) (hi : insts i = s)
    (hg : g.lastTimeStamp < t) (hpre : ∀ x ∈ pre, x ≤ t) (ht : t < t') :
    (runCalls insts g (List.replicate 4097 t ++ (pre ++ t' :: post))
        (List.replicate 4097 i)).map Outcome.view
      = (List.range 4096).map (fun k : Nat =>
          (assemble t s k, (none : Option GoError),
            ({ lastTimeStamp := t, sequence := k } : Shared)))
        ++ [(assemble t' s 0, none, { lastTimeStamp := t', sequence := 0 })] := by
  have e1 : List.replicate 4097 t ++ (pre ++ t' :: post)
      = t :: (List.replicate 4095 t ++ (t :: (pre ++ t' :: post))) := by
    rw [show (4097 : Nat) = (4095 + 1) + 1 from rfl, List.replicate_succ,
      List.replicate_succ', List.cons_append, List.append_assoc]
    rfl
  have e2 : List.replicate 4097 i = i :: (List.replicate 4095 i ++ [i]) := by
    rw [show (4097 : Nat) = (4095 + 1) + 1 from rfl, List.replicate_succ,
      List.replicate_succ']
  have hupd : Function.update insts i s = insts := by
    rw [← hi]
    exact Function.update_eq_self i insts
  rw [e1, e2, runCalls, hi, GetNextId_new s g t _ hs hg]
  simp only
  rw [hupd, List.map_cons,
    runCalls_same_milli s hs t i _ [i] 4095 0 insts hi (le_refl 0) (by norm_num)]
  have e3 : runCalls insts { lastTimeStamp := t, sequence := (0 : Int) + (4095 : Nat) }
      (t :: (pre ++ t' :: post)) [i]
      = [{ nextId := assemble t' s 0, err := none, inst := s,
           shared := { lastTimeStamp := t', sequence := 0 }, clock := post }] := by
    have e4 : (0 : Int) + ((4095 : Nat) : Int) = 4095 := by norm_num
    rw [e4, runCalls, hi, GetNextId_wrap s t t' _ post hs (nextMilli_skip t pre t' post hpre ht)]
    simp [runCalls]
  have e5 : (List.range 4096).map (fun k : Nat =>
        (assemble t s k, (none : Option GoError),
          ({ lastTimeStamp := t, sequence := k } : Shared)))
      = (assemble t s 0, none, { lastTimeStamp := t, sequence := 0 })
        :: (List.range 4095).map (fun k : Nat =>
          (assemble t s (0 + 1 + k), (none : Option GoError),
            ({ lastTimeStamp := t, sequence := 0 + 1 + k } : Shared))) := by
    rw [show (4096 : Nat) = 4095 + 1 from rfl, List.range_succ_eq_map, List.map_cons,
      List.map_map, Nat.cast_zero]
    refine congrArg _ (List.map_congr_left ?_)
    intro k _
    simp only [Function.comp, Nat.succ_eq_add_one, Nat.cast_add, Nat.cast_one]
    have e6 : (0 : Int) + 1 + (k : Int) = (k : Int) + 1 := by ring
    rw [e6]
  rw [e3, e5]
  rfl

theorem map_nextId_eq (l : List Outcome) :
    l.map (fun o => o.nextId) = (l.map Outcome.view).map (fun v => v.1) := by
  rw [List.map_map]
  rfl

/-- Shifting and masking an identifier made inside the window returns its fields. -/
theorem decode_fields (s : Snowflake) (g : Shared) (clock : List Int) (out : Outcome)
    (hs : s.valid) (h : GetNextId s g clock = some out) (hok : out.err = none)
    (hwin : inWindow out.shared.lastTimeStamp) :
    shr64 out.nextId 22 = out.shared.lastTimeStamp - initialTimestamp ∧
    and64 (shr64 out.nextId 17) 31 = s.dataCenterId ∧
    and64 (shr64 out.nextId 12) 31 = s.workId ∧
    and64 out.nextId 4095 = out.shared.sequence := by
  obtain ⟨u1, _, _⟩ := nextId_eq_sum s g clock out (valid_wellFormed s hs) h hok hwin
  obtain ⟨_, h3, _, h0, h1, _, _⟩ := GetNextId_success s g clock out h hok
  obtain ⟨_, c1, c2, c3, c4⟩ := hs
  rw [h3] at u1
  unfold Snowflake.coords at u1
  unfold inWindow at hwin
  rw [shr64_22, shr64_17, shr64_12, and64_31, and64_31, and64_4095, u1]
  refine ⟨by omega, by omega, by omega, by omega⟩

/-! ## Bit-level facts that hold outside the window -/

theorem nat_or_mod_two_pow (a b k : Nat) : (a ||| b) % 2 ^ k = a % 2 ^ k ||| b % 2 ^ k := by
  apply Nat.eq_of_testBit_eq
  intro i
  simp only [Nat.testBit_mod_two_pow, Nat.testBit_or]
  by_cases h : i < k <;> simp [h]

theorem ofU64_isInt64 (n : Nat) : isInt64 (ofU64 n) := by
  unfold isInt64 ofU64
  have h : n % 2 ^ 64 < 2 ^ 64 := Nat.mod_lt _ (by norm_num)
  split_ifs with h4
  · norm_num at *; omega
  · norm_num at *; omega

theorem toU64_ofU64 (n : Nat) (h : n < 18446744073709551616) : toU64 (ofU64 n) = n := by
  have h3 : n % 2 ^ 64 = n := Nat.mod_eq_of_lt (by omega)
  unfold ofU64
  rw [h3]
  split_ifs with h4
  · exact toU64_of_nonneg n h
  · have h1 := toU64_eq ((n : Int) - ((2 ^ 64 : Nat) : Int))
    generalize toU64 ((n : Int) - ((2 ^ 64 : Nat) : Int)) = m at h1 ⊢
    push_cast at h1
    omega

theorem toU64_wrap64 (x : Int) : toU64 (wrap64 x) = toU64 x := by
  have h1 := toU64_eq (wrap64 x)
  have h2 := toU64_eq x
  have h3 := wrap64_emod x
  omega

theorem toU64_or64 (a b : Int) : toU64 (or64 a b) = toU64 a ||| toU64 b := by
  unfold or64
  apply toU64_ofU64
  have h : toU64 a ||| toU64 b < 2 ^ 64 :=
    Nat.or_lt_two_pow (by have := toU64_lt a; omega) (by have := toU64_lt b; omega)
  omega

theorem or64_zero (x : Int) (h : isInt64 x) : or64 x 0 = x := by
  have h0 : toU64 0 = 0 := by decide
  unfold or64
  rw [h0, Nat.or_zero]
  exact wrap64_of_isInt64 x h

theorem or64_isInt64 (a b : Int) : isInt64 (or64 a b) :=
  ofU64_isInt64 _

theorem toU64_shl64_22 (a : Int) : toU64 (shl64 a 22) % 4096 = 0 := by
  have e : (22 : Int).toNat = 22 := rfl
  unfold shl64
  rw [toU64_wrap64, e]
  have h1 := toU64_eq (a * ((2 ^ 22 : Nat) : Int))
  have h2 : (a * ((2 ^ 22 : Nat) : Int)) % 18446744073709551616 % 4096 = 0 := by
    push_cast
    omega
  generalize a * ((2 ^ 22 : Nat) : Int) = y at h1 h2 ⊢
  omega

theorem toU64_shl64_17 (a : Int) : toU64 (shl64 a 17) % 4096 = 0 := by
  have e : (17 : Int).toNat = 17 := rfl
  unfold shl64
  rw [toU64_wrap64, e]
  have h1 := toU64_eq (a * ((2 ^ 17 : Nat) : Int))
  have h2 : (a * ((2 ^ 17 : Nat) : Int)) % 18446744073709551616 % 4096 = 0 := by
    push_cast
    omega
  generalize a * ((2 ^ 17 : Nat) : Int) = y at h1 h2 ⊢
  omega

theorem toU64_shl64_12 (a : Int) : toU64 (shl64 a 12) % 4096 = 0 := by
  have e : (12 : Int).toNat = 12 := rfl
  unfold shl64
  rw [toU64_wrap64, e]
  have h1 := toU64_eq (a * ((2 ^ 12 : Nat) : Int))
  have h2 : (a * ((2 ^ 12 : Nat) : Int)) % 18446744073709551616 % 4096 = 0 := by
    push_cast
    omega
  generalize a * ((2 ^ 12 : Nat) : Int) = y at h1 h2 ⊢
  omega

/-- The low 12 bits of an identifier are its sequence number, for every
timestamp and every coordinates. -/
theorem assemble_low (t : Int) (s : Snowflake) (q : Int) (hq0 : 0 ≤ q) (hq1 : q ≤ 4095) :
    and64 (assemble t s q) 4095 = q := by
  rw [and64_4095]
  have h1 := toU64_eq (assemble t s q)
  have h2 : toU64 (assemble t s q) % 2 ^ 12 = q.toNat := by
    unfold assemble
    simp only [timestampShift_eq, dataCenterIdShift_eq, workerIdShift_eq]
    rw [toU64_or64, toU64_or64, toU64_or64, nat_or_mod_two_pow, nat_or_mod_two_pow,
      nat_or_mod_two_pow]
    have a1 := toU64_shl64_22 (sub64 t initialTimestamp)
    have a2 := toU64_shl64_17 s.dataCenterId
    have a3 := toU64_shl64_12 s.workId
    norm_num at a1 a2 a3 ⊢
    rw [a1, a2, a3]
    have h3 := toU64_eq q
    simp only [Nat.zero_or]
    omega
  norm_num at h2
  omega

/-! ## Runs from an arbitrary package state -/

theorem GetInstance_valid (a b : Int) (ha0 : 0 ≤ a) (ha1 : a ≤ 31) (hb0 : 0 ≤ b) (hb1 : b ≤ 31) :
    (GetInstance a b).valid ∧ (GetInstance a b).workId = a ∧
      (GetInstance a b).dataCenterId = b := by
  unfold GetInstance Snowflake.valid
  rw [maxWorkerId_eq, maxDataCenterId_eq]
  have h1 : ¬ (a < 0 ∨ b < 0) := by omega
  have h2 : ¬ (a > 31 ∨ b > 31) := by omega
  simp only [h1, h2, if_false]
  exact ⟨⟨trivial, ha0, ha1, hb0, hb1⟩, trivial, trivial⟩

theorem GetNextId_inst_wellFormed (s : Snowflake) (g : Shared) (clock : List Int)
    (out : Outcome) (hwf : s.wellFormed) (h : GetNextId s g clock = some out) :
    out.inst.wellFormed := by
  cases hs : s.err with
  | some e =>
    rw [GetNextId_latched s g clock e hs] at h
    simp only [Option.some.injEq] at h
    subst h
    exact hwf
  | none =>
    obtain ⟨r, clock1, rfl, hc⟩ := GetNextId_cases s g _ out hs h
    rcases hc with ⟨_, rfl⟩ | ⟨_, _, rfl⟩ | ⟨_, _, m, clock2, _, rfl⟩ | ⟨_, rfl⟩
    · simp [Snowflake.wellFormed]
    · exact hwf
    · exact hwf
    · exact hwf

/-- What a returning call does to the package variables, for every instance. -/
theorem GetNextId_state (s : Snowflake) (g : Shared) (clock : List Int) (out : Outcome)
    (hg0 : 0 ≤ g.sequence) (hg1 : g.sequence ≤ 4095) (h : GetNextId s g clock = some out) :
    0 ≤ out.shared.sequence ∧ out.shared.sequence ≤ 4095 ∧
      g.lastTimeStamp ≤ out.shared.lastTimeStamp ∧
      (out.err = none → g.lt out.shared) ∧ (out.err ≠ none → out.shared = g) := by
  cases hs : s.err with
  | some e =>
    rw [GetNextId_latched s g clock e hs] at h
    simp only [Option.some.injEq] at h
    subst h
    simp [hg0, hg1]
  | none =>
    obtain ⟨r, clock1, rfl, hc⟩ := GetNextId_cases s g _ out hs h
    rcases hc with ⟨_, rfl⟩ | ⟨h1, h2, rfl⟩ | ⟨h1, h2, m, clock2, h3, rfl⟩ | ⟨h1, rfl⟩
    · simp [hg0, hg1]
    · refine ⟨by simp only; omega, by simp only; omega, by simp only; omega,
        fun _ => ?_, by simp⟩
      right
      simp only
      constructor <;> omega
    · obtain ⟨h4, _⟩ := nextMilli_spec _ _ _ _ h3
      exact ⟨by simp, by simp, by simp only; omega, fun _ => Or.inl h4, by simp⟩
    · exact ⟨by simp, by simp, by simp only; omega, fun _ => Or.inl h1, by simp⟩

/-- Inside the window every successful outcome of a run, from any package
state, is the sum of the fields of the state it leaves. -/
theorem runCalls_ok (calls : List Nat) :
    ∀ (insts : Nat → Snowflake) (g : Shared) (clock : List Int),
      (∀ k, (insts k).wellFormed) → (∀ r ∈ clock, inWindow r) →
      ∀ o ∈ runCalls insts g clock calls, o.err = none →
        inWindow o.shared.lastTimeStamp ∧
        0 ≤ o.shared.sequence ∧ o.shared.sequence ≤ 4095 ∧
        o.nextId = (o.shared.lastTimeStamp - initialTimestamp) * 4194304
          + o.inst.coords * 4096 + o.shared.sequence ∧
        0 ≤ o.inst.coords ∧ o.inst.coords ≤ 1023 := by
  induction calls with
  | nil => intro insts g clock _ _ o ho; simp [runCalls] at ho
  | cons i rest ih =>
    intro insts g clock hwf hclock o ho hok
    unfold runCalls at ho
    cases h : GetNextId (insts i) g clock with
    | none => simp [h] at ho
    | some out =>
      simp only [h, List.mem_cons] at ho
      rcases ho with rfl | ho
      · obtain ⟨_, _, t3, t4, t5, _, _⟩ := GetNextId_success _ g clock o h hok
        have hw := hclock _ t3
        obtain ⟨u1, u2, u3⟩ := nextId_eq_sum _ g clock o (hwf i) h hok hw
        exact ⟨hw, t4, t5, u1, u2, u3⟩
      · obtain ⟨pre, hpre⟩ := GetNextId_clock_suffix _ g clock out h
        exact ih (Function.update insts i out.inst) out.shared out.clock
          (update_wellFormed insts i out.inst hwf
            (GetNextId_inst_wellFormed _ g clock out (hwf i) h))
          (fun r hr => hclock r (by rw [hpre]; exact List.mem_append_right pre hr))
          o ho hok

/-- Successful outcomes of a run leave strictly increasing package states, from
any package state. -/
theorem runCalls_pairwise_lt (calls : List Nat) :
    ∀ (insts : Nat → Snowflake) (g : Shared) (clock : List Int),
      (∀ k, (insts k).wellFormed) → (∀ r ∈ clock, inWindow r) →
      List.Pairwise (fun a b : Outcome => a.err = none → b.err = none → a.shared.lt b.shared)
        (runCalls insts g clock calls) := by
  induction calls with
  | nil => intro insts g clock _ _; simp [runCalls]
  | cons i rest ih =>
    intro insts g clock hwf hclock
    unfold runCalls
    cases h : GetNextId (insts i) g clock with
    | none => simp
    | some out =>
      simp only
      obtain ⟨pre, hpre⟩ := GetNextId_clock_suffix _ g clock out h
      have hwf2 := update_wellFormed insts i out.inst hwf
        (GetNextId_inst_wellFormed _ g clock out (hwf i) h)
      have hclock2 : ∀ r ∈ out.clock, inWindow r :=
        fun r hr => hclock r (by rw [hpre]; exact List.mem_append_right pre hr)
      refine List.Pairwise.cons ?_ (ih _ out.shared out.clock hwf2 hclock2)
      intro o ho hok1 hok2
      obtain ⟨_, _, _, t4, t5, _, _⟩ := GetNextId_success _ g clock out h hok1
      exact (runCalls_mem rest _ out.shared out.clock hwf2 hclock2 t4 t5 o ho hok2).1

/-- A strictly increasing list of integers inside `[lo, hi)` has at most
`hi - lo` members. -/
theorem pairwise_lt_length_le (l : List Int) :
    ∀ (lo hi : Int), lo ≤ hi → l.Pairwise (fun a b => a < b) →
      (∀ x ∈ l, lo ≤ x ∧ x < hi) → (l.length : Int) ≤ hi - lo := by
  induction l with
  | nil => intro lo hi h _ _; simp; omega
  | cons a tl ih =>
    intro lo hi _ hp hb
    rw [List.pairwise_cons] at hp
    have ha := hb a (by simp)
    have h1 := ih (a + 1) hi (by omega) hp.2 (fun x hx => by
      have h2 := hp.1 x hx
      have h3 := hb x (by simp [hx])
      omega)
    simp only [List.length_cons, Nat.cast_add, Nat.cast_one]
    omega

/-! ## Effective reading and returning calls -/

/-- A successful call stamps its effective clock reading. -/
theorem effectiveReading_eq (s : Snowflake) (g : Shared) (clock : List Int) (out : Outcome)
    (hs : s.err = none) (h : GetNextId s g clock = some out) (hok : out.err = none) :
    effectiveReading g clock = some out.shared.lastTimeStamp := by
  obtain ⟨r, clock1, rfl, hc⟩ := GetNextId_cases s g _ out hs h
  simp only [effectiveReading, next_sequence_eq]
  rcases hc with ⟨_, rfl⟩ | ⟨h1, h2, rfl⟩ | ⟨h1, h2, m, clock2, h3, rfl⟩ | ⟨h1, rfl⟩
  · simp at hok
  · have hc : ¬ (r = g.lastTimeStamp ∧ (g.sequence + 1) % 4096 = 0) := fun hh => h2 hh.2
    rw [if_neg hc]
  · rw [if_pos ⟨h1, h2⟩, h3]
    rfl
  · have hc : ¬ (r = g.lastTimeStamp ∧ (g.sequence + 1) % 4096 = 0) := fun hh => by omega
    rw [if_neg hc]

theorem nextMilli_of_exists (last : Int) (clock : List Int) (h : ∃ x ∈ clock, last < x) :
    ∃ m rest, nextMilli last clock = some (m, rest) := by
  induction clock with
  | nil =>
    obtain ⟨x, hx, _⟩ := h
    simp at hx
  | cons r tl ih =>
    unfold nextMilli
    by_cases hr : r ≤ last
    · rw [if_pos hr]
      apply ih
      obtain ⟨x, hx, hlt⟩ := h
      rcases List.mem_cons.mp hx with rfl | hx
      · omega
      · exact ⟨x, hx, hlt⟩
    · rw [if_neg hr]
      exact ⟨r, tl, rfl⟩

/-- A call on an instance without latched error returns when the readings
suffice. -/
theorem GetNextId_returns (s : Snowflake) (g : Shared) (clock : List Int)
    (hs : s.err = none) (h : readingsSuffice g clock) :
    ∃ out, GetNextId s g clock = some out := by
  cases clock with
  | nil => exact absurd h (by unfold readingsSuffice; exact not_false)
  | cons r rest =>
    unfold readingsSuffice at h
    rw [next_sequence_eq] at h
    unfold GetNextId
    rw [hs]
    simp only [next_sequence_eq]
    by_cases h1 : r < g.lastTimeStamp
    · simp only [h1, if_true]
      exact ⟨_, rfl⟩
    · simp only [h1, if_false]
      by_cases h2 : r = g.lastTimeStamp
      · simp only [h2, if_true]
        by_cases h3 : (g.sequence + 1) % 4096 = 0
        · simp only [h3, if_true]
          obtain ⟨m, rest2, hn⟩ := nextMilli_of_exists g.lastTimeStamp rest (h ⟨h2, h3⟩)
          rw [hn]
          exact ⟨_, rfl⟩
        · simp only [h3, if_false]
          exact ⟨_, rfl⟩
      · simp only [h2, if_false]
        exact ⟨_, rfl⟩

/-- Under a non-decreasing clock that starts at or after `lastTimeStamp`, a run
on instances without latched error whose readings suffice returns from every
call. -/
theorem runCalls_length (calls : List Nat) :
    ∀ (insts : Nat → Snowflake) (g : Shared) (clock : List Int),
      (∀ k, (insts k).err = none) → List.Pairwise (fun a b : Int => a ≤ b) clock →
      (∀ r ∈ clock, g.lastTimeStamp ≤ r) →
      readingsSufficeRun insts g clock calls = true →
      (runCalls insts g clock calls).length = calls.length := by
  induction calls with
  | nil => intro insts g clock _ _ _ _; simp [runCalls]
  | cons i rest ih =>
    intro insts g clock hins hsorted hlast hsuf
    unfold readingsSufficeRun at hsuf
    rw [Bool.and_eq_true, decide_eq_true_eq] at hsuf
    obtain ⟨out, h⟩ := GetNextId_returns (insts i) g clock (hins i) hsuf.1
    have hrest := hsuf.2
    rw [h] at hrest
    simp only at hrest
    unfold runCalls
    rw [h]
    simp only [List.length_cons, Nat.add_right_cancel_iff]
    have hok : out.err = none := by
      cases clock with
      | nil => simp [GetNextId, hins i] at h
      | cons r tl =>
        by_contra hne
        have := (GetNextId_err_iff _ g r tl out (hins i) h).mp hne
        have := hlast r (by simp)
        omega
    obtain ⟨_, h2, _⟩ := GetNextId_success _ g clock out h hok
    obtain ⟨pre, hpre⟩ := GetNextId_success_clock _ g clock out h hok
    rw [hpre, List.pairwise_append, List.pairwise_cons] at hsorted
    refine ih (Function.update insts i out.inst) out.shared out.clock ?_
      hsorted.2.1.2 hsorted.2.1.1 hrest
    intro k
    by_cases hk : k = i
    · subst hk
      simpa [h2] using hins k
    · simpa [Function.update_noteq hk] using hins k

/-! ## The claims -/

/-- C1 (uniqueness). Start from the initial package state and run any finite
sequence of `GetNextId` calls on any mix of instances built by `GetInstance`,
against any clock whose readings all lie in the 41-bit window: any two calls of
the run that both succeed return different identifiers. -/
theorem C1_unique_ids (workId dataCenterId : Nat → Int) (calls : List Nat) (clock : List Int)
    (hclock : ∀ r ∈ clock, inWindow r) :
    List.Pairwise (fun a b : Outcome => a.err = none → b.err = none → a.nextId ≠ b.nextId)
      (runCalls (fun k => GetInstance (workId k) (dataCenterId k)) Shared.init clock calls) :=
  runCalls_pairwise calls _ Shared.init clock
    (fun k => GetInstance_wellFormed (workId k) (dataCenterId k)) hclock
    (by decide) (by decide)

theorem C1_unique_ids_witness :
    (∀ r ∈ [1704038400001, 1704038400001, 1704038400000, 1704038400001], inWindow r) ∧
    List.Pairwise (fun a b : Outcome => a.err = none → b.err = none → a.nextId ≠ b.nextId)
      (runCalls (fun k => GetInstance (if k = 0 then 1 else 10) (if k = 0 then 1 else 40))
        Shared.init [1704038400001, 1704038400001, 1704038400000, 1704038400001]
        [0, 1, 0, 1, 2, 0]) :=
  ⟨by decide, C1_unique_ids (fun k => if k = 0 then 1 else 10)
    (fun k => if k = 0 then 1 else 40) [0, 1, 0, 1, 2, 0]
    [1704038400001, 1704038400001, 1704038400000, 1704038400001] (by decide)⟩

/-- C2 (bit-layout round trip). For an instance without latched error whose
stored coordinates are in `[0, 31]`, a successful `GetNextId` call whose
effective clock reading `t` (the reading returned by `nextMilli` when the
sequence wrapped, the first reading otherwise) lies in the 41-bit window stamps
`t` and returns an identifier that decodes exactly:
`id >> 22 = t - 1704038400000`, `(id >> 17) & 31 = dataCenterId`,
`(id >> 12) & 31 = workId`, `id & 4095 =` the shared sequence after the call. -/
theorem C2_round_trip (s : Snowflake) (g : Shared) (clock : List Int) (out : Outcome) (t : Int)
    (hs : s.valid) (h : GetNextId s g clock = some out) (hok : out.err = none)
    (ht : effectiveReading g clock = some t) (hwin : inWindow t) :
    out.shared.lastTimeStamp = t ∧
    shr64 out.nextId 22 = t - initialTimestamp ∧
    and64 (shr64 out.nextId 17) 31 = s.dataCenterId ∧
    and64 (shr64 out.nextId 12) 31 = s.workId ∧
    and64 out.nextId 4095 = out.shared.sequence := by
  have he := effectiveReading_eq s g clock out hs.1 h hok
  rw [ht, Option.some.injEq] at he
  subst he
  exact ⟨rfl, decode_fields s g clock out hs h hok hwin⟩

theorem C2_round_trip_witness :
    (GetInstance 3 7).valid ∧
    GetNextId (GetInstance 3 7) { lastTimeStamp := 1704038400005, sequence := 4095 }
      [1704038400005, 1704038400004, 1704038400009, 1704038400010]
      = some { nextId := 38678528, err := none, inst := GetInstance 3 7,
               shared := { lastTimeStamp := 1704038400009, sequence := 0 },
               clock := [1704038400010] } ∧
    effectiveReading { lastTimeStamp := 1704038400005, sequence := 4095 }
      [1704038400005, 1704038400004, 1704038400009, 1704038400010] = some 1704038400009 ∧
    inWindow 1704038400009 ∧
    ((Shared.mk 1704038400009 0).lastTimeStamp = 1704038400009 ∧
    shr64 38678528 22 = 1704038400009 - initialTimestamp ∧
    and64 (shr64 38678528 17) 31 = (GetInstance 3 7).dataCenterId ∧
    and64 (shr64 38678528 12) 31 = (GetInstance 3 7).workId ∧
    and64 38678528 4095 = (Shared.mk 1704038400009 0).sequence) :=
  ⟨by decide, by decide, by decide, by decide,
    C2_round_trip (GetInstance 3 7) { lastTimeStamp := 1704038400005, sequence := 4095 }
      [1704038400005, 1704038400004, 1704038400009, 1704038400010]
      { nextId := 38678528, err := none, inst := GetInstance 3 7,
        shared := { lastTimeStamp := 1704038400009, sequence := 0 },
        clock := [1704038400010] }
      1704038400009 (by decide) (by decide) rfl (by decide) (by decide)⟩

/-- C3, as stated, fails: two consecutive successful calls in one millisecond,
the first on the instance with coordinates (workId 0, dataCenterId 1), the second
on the instance with coordinates (0, 0), return 131072 and then 1. -/
theorem C3_counterexample :
    (GetInstance 0 1).valid ∧ (GetInstance 0 0).valid ∧
    (∀ r ∈ [1704038400000, 1704038400000], inWindow r) ∧
    List.Pairwise (fun a b : Int => a ≤ b) [1704038400000, 1704038400000] ∧
    ∃ o1 o2 : Outcome,
      GetNextId (GetInstance 0 1) Shared.init [1704038400000, 1704038400000] = some o1 ∧
      GetNextId (GetInstance 0 0) o1.shared o1.clock = some o2 ∧
      o1.err = none ∧ o2.err = none ∧ o1.nextId = 131072 ∧ o2.nextId = 1 ∧
      ¬ (o2.nextId > o1.nextId) :=
  ⟨by decide, by decide, by decide, by decide,
    { nextId := 131072, err := none, inst := GetInstance 0 1,
      shared := { lastTimeStamp := 1704038400000, sequence := 0 },
      clock := [1704038400000] },
    { nextId := 1, err := none, inst := GetInstance 0 0,
      shared := { lastTimeStamp := 1704038400000, sequence := 1 }, clock := [] },
    by decide, by decide, rfl, rfl, rfl, rfl, by decide⟩

/-- C3, amended (monotonicity). For every package state and every two consecutive
successful `GetNextId` calls on valid instances `s1` then `s2` sharing that state,
with all clock readings in the 41-bit window, the second identifier is greater
than the first whenever the coordinates of `s2` are not below those of `s1`
(`32 * dataCenterId + workId`; in particular for the same instance or equal
coordinates) or the second call is stamped with a later millisecond.  No
assumption on the order of the readings is needed: a successful second call has
read a value not below `lastTimeStamp`. -/
theorem C3_monotone (s1 s2 : Snowflake) (g : Shared) (clock : List Int) (o1 o2 : Outcome)
    (h1 : s1.valid) (h2 : s2.valid) (hclock : ∀ r ∈ clock, inWindow r)
    (c1 : GetNextId s1 g clock = some o1) (ok1 : o1.err = none)
    (c2 : GetNextId s2 o1.shared o1.clock = some o2) (ok2 : o2.err = none)
    (hc : s1.coords ≤ s2.coords ∨ o1.shared.lastTimeStamp < o2.shared.lastTimeStamp) :
    o1.nextId < o2.nextId := by
  obtain ⟨_, a2, a3, a4, a5, _, _⟩ := GetNextId_success s1 g clock o1 c1 ok1
  obtain ⟨_, b2, b3, b4, b5, _, b7⟩ := GetNextId_success s2 o1.shared o1.clock o2 c2 ok2
  obtain ⟨pre, hpre⟩ := GetNextId_clock_suffix s1 g clock o1 c1
  have w1 := hclock _ a3
  have w2 := hclock _ (by rw [hpre]; exact List.mem_append_right pre b3)
  obtain ⟨u1, u2, u3⟩ := nextId_eq_sum s1 g clock o1 (valid_wellFormed s1 h1) c1 ok1 w1
  obtain ⟨v1, v2, v3⟩ :=
    nextId_eq_sum s2 o1.shared o1.clock o2 (valid_wellFormed s2 h2) c2 ok2 w2
  rw [a2] at u1 u2 u3
  rw [b2] at v1 v2 v3
  unfold inWindow at w1 w2
  rw [u1, v1]
  omega

theorem C3_monotone_witness :
    (GetInstance 1 1).valid ∧ (GetInstance 10 10).valid ∧
    (∀ r ∈ [1704038400007, 1704038400007], inWindow r) ∧
    (29495296 : Int) < 30711809 :=
  ⟨by decide, by decide, by decide,
    C3_monotone (GetInstance 1 1) (GetInstance 10 10) Shared.init
      [1704038400007, 1704038400007]
      { nextId := 29495296, err := none, inst := GetInstance 1 1,
        shared := { lastTimeStamp := 1704038400007, sequence := 0 },
        clock := [1704038400007] }
      { nextId := 30711809, err := none, inst := GetInstance 10 10,
        shared := { lastTimeStamp := 1704038400007, sequence := 1 }, clock := [] }
      (by decide) (by decide) (by decide) (by decide) rfl (by decide) rfl
      (Or.inl (by decide))⟩

/-- C4 (construction validation). `GetInstance workId dataCenterId` carries an
error exactly when `workId < 0`, `dataCenterId < 0`, `workId > 31` or
`dataCenterId > 31`; otherwise its error is nil and it stores the two values
given.  `GetInstance (-1) 0` and `GetInstance 32 0` carry an error.  (The
function is total and neither reads nor writes `lastTimeStamp` or `sequence`.) -/
theorem C4_construction (workId dataCenterId : Int) :
    ((GetInstance workId dataCenterId).err ≠ none ↔
      (workId < 0 ∨ dataCenterId < 0 ∨ workId > 31 ∨ dataCenterId > 31)) ∧
    ((GetInstance workId dataCenterId).err = none →
      (GetInstance workId dataCenterId).workId = workId ∧
      (GetInstance workId dataCenterId).dataCenterId = dataCenterId) ∧
    (GetInstance (-1) 0).err ≠ none ∧ (GetInstance 32 0).err ≠ none := by
  refine ⟨GetInstance_err_iff workId dataCenterId, ?_, by decide, by decide⟩
  · unfold GetInstance
    split_ifs with h1 h2
    · simp
    · simp
    · simp

/-- C5 (latched error). On an instance whose `err` field holds an error `e`,
`GetNextId` returns `(0, e)` for every package state and every clock, consumes
no clock reading, and leaves `lastTimeStamp`, `sequence` and the instance as
they were; so any number `n` of calls on it all return `(0, e)`. -/
theorem C5_latched (s : Snowflake) (e : GoError) (hs : s.err = some e) (g : Shared)
    (clock : List Int) (insts : Nat → Snowflake) (i : Nat) (hi : insts i = s) (n : Nat) :
    GetNextId s g clock
      = some { nextId := 0, err := some e, inst := s, shared := g, clock := clock } ∧
    runCalls insts g clock (List.replicate n i)
      = List.replicate n
          { nextId := 0, err := some e, inst := s, shared := g, clock := clock } := by
  refine ⟨GetNextId_latched s g clock e hs, ?_⟩
  induction n with
  | zero => rfl
  | succ n ih =>
    rw [List.replicate_succ, runCalls, hi, GetNextId_latched s g clock e hs]
    simp only
    rw [← hi, Function.update_eq_self, hi, ih, List.replicate_succ]

theorem C5_latched_witness :
    (GetInstance 32 0).err = some (GoError.exceedsMax 31 31) ∧
    GetNextId (GetInstance 32 0) { lastTimeStamp := 1704038400005, sequence := 9 }
        [1704038400099]
      = some { nextId := 0, err := some (GoError.exceedsMax 31 31), inst := GetInstance 32 0,
               shared := { lastTimeStamp := 1704038400005, sequence := 9 },
               clock := [1704038400099] } ∧
    runCalls (fun _ => GetInstance 32 0) { lastTimeStamp := 1704038400005, sequence := 9 }
        [1704038400099] (List.replicate 3 0)
      = List.replicate 3
          { nextId := 0, err := some (GoError.exceedsMax 31 31), inst := GetInstance 32 0,
            shared := { lastTimeStamp := 1704038400005, sequence := 9 },
            clock := [1704038400099] } :=
  ⟨by decide, C5_latched (GetInstance 32 0) (GoError.exceedsMax 31 31) (by decide)
    { lastTimeStamp := 1704038400005, sequence := 9 } [1704038400099]
    (fun _ => GetInstance 32 0) 0 rfl 3⟩

/-- C6 (clock regression is atomic). On an instance without latched error, when
the clock reading `now` is below `lastTimeStamp`, `GetNextId` returns `(0, err)`
with the clock-regression error, stores that error in the instance, and leaves
`lastTimeStamp` and `sequence` as they were. -/
theorem C6_regression (s : Snowflake) (g : Shared) (now : Int) (clock : List Int)
    (hs : s.err = none) (hnow : now < g.lastTimeStamp) :
    GetNextId s g (now :: clock)
      = some { nextId := 0, err := some GoError.clockBackwards,
               inst := { workId := s.workId, dataCenterId := s.dataCenterId,
                         err := some GoError.clockBackwards },
               shared := g, clock := clock } := by
  unfold GetNextId
  rw [hs]
  simp only [hnow, if_true]

theorem C6_regression_witness :
    (GetInstance 1 1).err = none ∧
    (1704038400004 : Int) < (Shared.mk 1704038400005 9).lastTimeStamp ∧
    GetNextId (GetInstance 1 1) { lastTimeStamp := 1704038400005, sequence := 9 }
        (1704038400004 :: [1704038400006])
      = some { nextId := 0, err := some GoError.clockBackwards,
               inst := { workId := (GetInstance 1 1).workId,
                         dataCenterId := (GetInstance 1 1).dataCenterId,
                         err := some GoError.clockBackwards },
               shared := { lastTimeStamp := 1704038400005, sequence := 9 },
               clock := [1704038400006] } :=
  ⟨by decide, by decide,
    C6_regression (GetInstance 1 1) { lastTimeStamp := 1704038400005, sequence := 9 }
      1704038400004 [1704038400006] (by decide) (by decide)⟩

/-- C7, as stated, fails: the one-reading clock `[-1]` is non-decreasing, yet
the first call on `GetInstance 1 1` from the initial state reads `-1 < 0 =
lastTimeStamp` and returns the clock-regression error. -/
theorem C7_counterexample :
    (GetInstance 1 1).valid ∧ List.Pairwise (fun a b : Int => a ≤ b) [-1] ∧
    (runCalls (fun _ => GetInstance 1 1) Shared.init [-1] [0]).map
        (fun o => (o.nextId, o.err))
      = [(0, some GoError.clockBackwards)] := by
  decide

/-- C7, amended (no error under a healthy clock). For every instance built by
`GetInstance` with both arguments in `[0, 31]`, while it carries no latched
error: a `GetNextId` call for which the readings suffice (there is a first
reading and the busy-wait, if any, finishes) returns, and a returning call fails
if and only if its first clock reading is below `lastTimeStamp`; and a run of
`N` calls on such instances from the initial state, against a non-decreasing
clock whose readings are not below 0 (the initial `lastTimeStamp`), yields no
error in any call that returns, and yields `N` identifiers and no error when
the readings suffice for every call. -/
theorem C7_healthy_clock (workId dataCenterId : Nat → Int)
    (hcoords : ∀ k, 0 ≤ workId k ∧ workId k ≤ 31 ∧ 0 ≤ dataCenterId k ∧ dataCenterId k ≤ 31)
    (calls : List Nat) (clock : List Int)
    (hsorted : List.Pairwise (fun a b : Int => a ≤ b) clock) (hnonneg : ∀ r ∈ clock, 0 ≤ r) :
    (∀ (k : Nat) (g : Shared) (r : Int) (rest : List Int), readingsSuffice g (r :: rest) →
      ∃ out, GetNextId (GetInstance (workId k) (dataCenterId k)) g (r :: rest) = some out ∧
        (out.err ≠ none ↔ r < g.lastTimeStamp)) ∧
    (∀ (k : Nat) (g : Shared) (r : Int) (rest : List Int) (out : Outcome),
      GetNextId (GetInstance (workId k) (dataCenterId k)) g (r :: rest) = some out →
        (out.err ≠ none ↔ r < g.lastTimeStamp)) ∧
    (∀ o ∈ runCalls (fun k => GetInstance (workId k) (dataCenterId k)) Shared.init clock calls,
      o.err = none) ∧
    (readingsSufficeRun (fun k => GetInstance (workId k) (dataCenterId k)) Shared.init clock
        calls = true →
      (runCalls (fun k => GetInstance (workId k) (dataCenterId k)) Shared.init clock
        calls).length = calls.length ∧
      ((runCalls (fun k => GetInstance (workId k) (dataCenterId k)) Shared.init clock
        calls).map (fun o => o.err)) = List.replicate calls.length none) := by
  have hv : ∀ k, (GetInstance (workId k) (dataCenterId k)).err = none := by
    intro k
    have h := GetInstance_err_iff (workId k) (dataCenterId k)
    have hc := hcoords k
    by_contra hne
    have := h.mp hne
    omega
  have hnoerr := runCalls_no_error calls _ Shared.init clock hv hsorted hnonneg
  refine ⟨?_, fun k g r rest out h => GetNextId_err_iff _ g r rest out (hv k) h, hnoerr, ?_⟩
  · intro k g r rest hsuf
    obtain ⟨out, h⟩ := GetNextId_returns _ g (r :: rest) (hv k) hsuf
    exact ⟨out, h, GetNextId_err_iff _ g r rest out (hv k) h⟩
  · intro hsuf
    have hlen := runCalls_length calls _ Shared.init clock hv hsorted hnonneg hsuf
    refine ⟨hlen, ?_⟩
    rw [← hlen, ← List.length_map _ (fun o : Outcome => o.err)]
    apply List.eq_replicate_of_mem
    intro e he
    obtain ⟨o, ho, rfl⟩ := List.mem_map.mp he
    exact hnoerr o ho

theorem C7_healthy_clock_witness :
    ((0 : Int) ≤ 1 ∧ (1 : Int) ≤ 31 ∧ (0 : Int) ≤ 10 ∧ (10 : Int) ≤ 31) ∧
    List.Pairwise (fun a b : Int => a ≤ b) [1704038400005, 1704038400005, 1704038400007] ∧
    (∀ r ∈ [1704038400005, 1704038400005, 1704038400007], (0 : Int) ≤ r) ∧
    readingsSufficeRun (fun _ => GetInstance 1 10) Shared.init
      [1704038400005, 1704038400005, 1704038400007] [0, 1, 0] = true ∧
    ((∀ (_ : Nat) (g : Shared) (r : Int) (rest : List Int), readingsSuffice g (r :: rest) →
      ∃ out, GetNextId (GetInstance 1 10) g (r :: rest) = some out ∧
        (out.err ≠ none ↔ r < g.lastTimeStamp)) ∧
    (∀ (_ : Nat) (g : Shared) (r : Int) (rest : List Int) (out : Outcome),
      GetNextId (GetInstance 1 10) g (r :: rest) = some out →
        (out.err ≠ none ↔ r < g.lastTimeStamp)) ∧
    (∀ o ∈ runCalls (fun _ => GetInstance 1 10) Shared.init
        [1704038400005, 1704038400005, 1704038400007] [0, 1, 0],
      o.err = none) ∧
    (readingsSufficeRun (fun _ => GetInstance 1 10) Shared.init
        [1704038400005, 1704038400005, 1704038400007] [0, 1, 0] = true →
      (runCalls (fun _ => GetInstance 1 10) Shared.init
        [1704038400005, 1704038400005, 1704038400007] [0, 1, 0]).length
        = [0, 1, 0].length ∧
      ((runCalls (fun _ => GetInstance 1 10) Shared.init
        [1704038400005, 1704038400005, 1704038400007] [0, 1, 0]).map (fun o => o.err))
        = List.replicate [0, 1, 0].length none)) :=
  ⟨by decide, by decide, by decide, by decide,
    C7_healthy_clock (fun _ => 1) (fun _ => 10) (fun _ => by simp) [0, 1, 0]
      [1704038400005, 1704038400005, 1704038400007] (by decide) (by decide)⟩

/-- C8, as stated, fails outside the 41-bit window: with `t = 1704038400000`
and `t' = t + 2^42`, on `GetInstance 0 0` from the initial state, the first and
the 4097th call both return 0, so the 4097 identifiers are not pairwise
different (`(t' - 1704038400000) << 22` overflows to 0). -/
theorem C8_counterexample :
    (GetInstance 0 0).valid ∧ Shared.init.lastTimeStamp < 1704038400000 ∧
    (1704038400000 : Int) < 6102084911104 ∧
    ¬ ((runCalls (fun _ => GetInstance 0 0) Shared.init
          (List.replicate 4097 1704038400000 ++ ([] ++ 6102084911104 :: []))
          (List.replicate 4097 0)).map (fun o => o.nextId)).Nodup := by
  refine ⟨by decide, by decide, by decide, ?_⟩
  rw [map_nextId_eq, rollover_trace (GetInstance 0 0) (by decide) Shared.init 1704038400000
    6102084911104 [] [] (fun _ => GetInstance 0 0) 0 rfl (by decide) (by simp) (by decide),
    List.map_append, List.map_map, List.nodup_append]
  intro h
  have hd := h.2.2
  have hm : assemble 6102084911104 (GetInstance 0 0) 0 ∈
      [(assemble 6102084911104 (GetInstance 0 0) 0, (none : Option GoError),
        ({ lastTimeStamp := 6102084911104, sequence := 0 } : Shared))].map (fun v => v.1) := by
    simp
  refine hd ?_ hm
  rw [List.mem_map]
  exact ⟨0, by simp, by decide⟩

/-- C8, amended (sequence rollover). For a valid instance and a package state
with `lastTimeStamp < t`, where `t` and `t'` lie in the 41-bit window: if the
first reading of 4097 consecutive `GetNextId` calls is `t` each time and the
busy-wait of the last call reads values not above `t` and then `t' > t`, then
all 4097 calls succeed; call `k = 0..4095` returns an identifier with sequence
field `k` and timestamp field `t - 1704038400000` and leaves the state `(t, k)`;
the 4097th call returns an identifier with sequence field 0 and timestamp field
`t' - 1704038400000` and leaves the state `(t', 0)`; and the 4097 identifiers
are pairwise different. -/
theorem C8_rollover (s : Snowflake) (hs : s.valid) (g : Shared) (t t' : Int)
    (pre post : List Int) (insts : Nat → Snowflake) (i : Nat) (hi : insts i = s)
    (hg : g.lastTimeStamp < t) (hpre : ∀ x ∈ pre, x ≤ t) (ht : t < t')
    (hw : inWindow t) (hw' : inWindow t') :
    (runCalls insts g (List.replicate 4097 t ++ (pre ++ t' :: post))
        (List.replicate 4097 i)).map Outcome.view
      = (List.range 4096).map (fun k : Nat =>
          (assemble t s k, (none : Option GoError),
            ({ lastTimeStamp := t, sequence := k } : Shared)))
        ++ [(assemble t' s 0, none, { lastTimeStamp := t', sequence := 0 })] ∧
    (∀ k : Nat, k < 4096 →
      and64 (assemble t s k) 4095 = k ∧ shr64 (assemble t s k) 22 = t - initialTimestamp) ∧
    (and64 (assemble t' s 0) 4095 = 0 ∧
      shr64 (assemble t' s 0) 22 = t' - initialTimestamp) ∧
    ((runCalls insts g (List.replicate 4097 t ++ (pre ++ t' :: post))
        (List.replicate 4097 i)).map (fun o => o.nextId)).Nodup := by
  obtain ⟨he, c1, c2, c3, c4⟩ := hs
  have htr := rollover_trace s he g t t' pre post insts i hi hg hpre ht
  unfold inWindow at hw hw'
  have hw2 := hw.2
  have hw2' := hw'.2
  norm_num at hw2 hw2'
  have hk : ∀ k : Nat, k < 4096 → assemble t s k
      = (t - initialTimestamp) * 4194304 + s.dataCenterId * 131072 + s.workId * 4096 + k :=
    fun k hk => assemble_eq t s k hw.1 hw2 c1 c2 c3 c4 (by omega) (by omega)
  have hl : assemble t' s 0
      = (t' - initialTimestamp) * 4194304 + s.dataCenterId * 131072 + s.workId * 4096 + 0 :=
    assemble_eq t' s 0 hw'.1 hw2' c1 c2 c3 c4 (by omega) (by omega)
  refine ⟨htr, ?_, ?_, ?_⟩
  · intro k hk1
    rw [hk k hk1, and64_4095, shr64_22]
    constructor <;> omega
  · rw [hl, and64_4095, shr64_22]
    constructor <;> omega
  · rw [map_nextId_eq, htr, List.map_append, List.map_map]
    refine List.Pairwise.imp (R := fun a b : Int => a < b) (fun hab => ne_of_lt hab) ?_
    rw [List.pairwise_append]
    refine ⟨?_, by simp, ?_⟩
    · rw [List.pairwise_map]
      refine List.Pairwise.imp_of_mem ?_ (List.pairwise_lt_range 4096)
      intro a b ha hb hab
      simp only [Function.comp]
      rw [hk a (List.mem_range.mp ha), hk b (List.mem_range.mp hb)]
      omega
    · intro a ha b hb
      simp only [List.map_cons, List.map_nil, List.mem_singleton] at hb
      obtain ⟨k, hk1, rfl⟩ := List.mem_map.mp ha
      simp only [Function.comp]
      rw [hb, hk k (List.mem_range.mp hk1), hl]
      have := List.mem_range.mp hk1
      omega

theorem C8_rollover_witness :
    (GetInstance 1 1).valid ∧ Shared.init.lastTimeStamp < 1704038400005 ∧
    (∀ x ∈ [1704038400005, 1704038400004], x ≤ (1704038400005 : Int)) ∧
    (1704038400005 : Int) < 1704038400006 ∧
    inWindow 1704038400005 ∧ inWindow 1704038400006 ∧
    ((runCalls (fun _ => GetInstance 1 1) Shared.init
        (List.replicate 4097 1704038400005
          ++ ([1704038400005, 1704038400004] ++ 1704038400006 :: [1704038400006]))
        (List.replicate 4097 0)).map Outcome.view
      = (List.range 4096).map (fun k : Nat =>
          (assemble 1704038400005 (GetInstance 1 1) k, (none : Option GoError),
            ({ lastTimeStamp := 1704038400005, sequence := k } : Shared)))
        ++ [(assemble 1704038400006 (GetInstance 1 1) 0, none,
              { lastTimeStamp := 1704038400006, sequence := 0 })] ∧
    (∀ k : Nat, k < 4096 →
      and64 (assemble 1704038400005 (GetInstance 1 1) k) 4095 = k ∧
      shr64 (assemble 1704038400005 (GetInstance 1 1) k) 22
        = 1704038400005 - initialTimestamp) ∧
    (and64 (assemble 1704038400006 (GetInstance 1 1) 0) 4095 = 0 ∧
      shr64 (assemble 1704038400006 (GetInstance 1 1) 0) 22
        = 1704038400006 - initialTimestamp) ∧
    ((runCalls (fun _ => GetInstance 1 1) Shared.init
        (List.replicate 4097 1704038400005
          ++ ([1704038400005, 1704038400004] ++ 1704038400006 :: [1704038400006]))
        (List.replicate 4097 0)).map (fun o => o.nextId)).Nodup) :=
  ⟨by decide, by decide, by decide, by decide, by decide, by decide,
    C8_rollover (GetInstance 1 1) (by decide) Shared.init 1704038400005 1704038400006
      [1704038400005, 1704038400004] [1704038400006] (fun _ => GetInstance 1 1) 0 rfl
      (by decide) (by decide) (by decide) (by decide) (by decide)⟩

/-- C9, as stated, fails: the reading `3903061655552 = 1704038400000 + 2^41`
triggers no regression from the initial state, and the call on `GetInstance 0 0`
returns `-2^63`, whose bit 63 is 1. -/
theorem C9_counterexample :
    (GetInstance 0 0).valid ∧
    GetNextId (GetInstance 0 0) Shared.init [3903061655552]
      = some { nextId := -9223372036854775808, err := none, inst := GetInstance 0 0,
               shared := { lastTimeStamp := 3903061655552, sequence := 0 }, clock := [] } ∧
    isInt64 3903061655552 ∧
    (toU64 (-9223372036854775808)).testBit 63 = true ∧
    ¬ ((0 : Int) ≤ -9223372036854775808) := by
  decide

/-- C9, amended (sign bit). Every identifier returned by a successful
`GetNextId` call on a valid instance, for every package state, whose effective
clock reading `t` (the value stored in `lastTimeStamp`) lies in the 41-bit
window `0 <= t - 1704038400000 < 2^41`, has bit 63 equal to 0: it is a
non-negative int64. -/
theorem C9_sign_bit (s : Snowflake) (g : Shared) (clock : List Int) (out : Outcome)
    (hs : s.valid) (h : GetNextId s g clock = some out) (hok : out.err = none)
    (hwin : inWindow out.shared.lastTimeStamp) :
    0 ≤ out.nextId ∧ out.nextId < 2 ^ 63 ∧ (toU64 out.nextId).testBit 63 = false := by
  obtain ⟨u1, u2, u3⟩ := nextId_eq_sum s g clock out (valid_wellFormed s hs) h hok hwin
  obtain ⟨_, _, _, h0, h1, _, _⟩ := GetNextId_success s g clock out h hok
  unfold inWindow at hwin
  have hw2 := hwin.2
  norm_num at hw2
  have a1 : 0 ≤ out.nextId := by omega
  have a2 : out.nextId < 9223372036854775808 := by omega
  refine ⟨a1, by norm_num; exact a2, ?_⟩
  apply Nat.testBit_lt_two_pow
  have h3 := toU64_eq out.nextId
  norm_num
  omega

theorem C9_sign_bit_witness :
    (GetInstance 31 31).valid ∧
    inWindow (Shared.mk 3903061655551 4095).lastTimeStamp ∧
    ((0 : Int) ≤ 9223372036854775807 ∧ (9223372036854775807 : Int) < 2 ^ 63 ∧
      (toU64 9223372036854775807).testBit 63 = false) :=
  ⟨by decide, by decide,
    C9_sign_bit (GetInstance 31 31) { lastTimeStamp := 3903061655551, sequence := 4094 }
      [3903061655551]
      { nextId := 9223372036854775807, err := none, inst := GetInstance 31 31,
        shared := { lastTimeStamp := 3903061655551, sequence := 4095 }, clock := [] }
      (by decide) (by decide) rfl (by decide)⟩

/-- C10, as stated, fails: 2024-01-01T00:00:00 UTC is 19723 days, that is
1704067200000 ms, after 1970-01-01T00:00:00 UTC, which is not `initialTimestamp`. -/
theorem C10_counterexample :
    daysFrom1970 2024 = 19723 ∧ unixMilliOfYearStartUTC 2024 = 1704067200000 ∧
    initialTimestamp ≠ unixMilliOfYearStartUTC 2024 := by
  decide

/-- C10, amended (epoch constant). `initialTimestamp` (1704038400000) is the
number of milliseconds from 1970-01-01T00:00:00 UTC to 2023-12-31T16:00:00 UTC,
eight hours before 2024-01-01T00:00:00 UTC (midnight of 2024-01-01 at UTC+8),
computed from the Gregorian calendar; so the timestamp field of an identifier
made inside the window is the number of milliseconds elapsed since
2023-12-31T16:00:00 UTC. -/
theorem C10_epoch (s : Snowflake) (g : Shared) (clock : List Int) (out : Outcome)
    (hs : s.valid) (h : GetNextId s g clock = some out) (hok : out.err = none)
    (hwin : inWindow out.shared.lastTimeStamp) :
    initialTimestamp = unixMilliOfYearStartUTC 2024 - 8 * 3600000 ∧
    shr64 out.nextId 22
      = out.shared.lastTimeStamp - (unixMilliOfYearStartUTC 2024 - 8 * 3600000) := by
  have e : initialTimestamp = unixMilliOfYearStartUTC 2024 - 8 * 3600000 := by decide
  refine ⟨e, ?_⟩
  rw [← e]
  exact (decode_fields s g clock out hs h hok hwin).1

theorem C10_epoch_witness :
    (GetInstance 1 1).valid ∧ inWindow (Shared.mk 1704067200000 0).lastTimeStamp ∧
    (initialTimestamp = unixMilliOfYearStartUTC 2024 - 8 * 3600000 ∧
      shr64 120795955335168 22
        = 1704067200000 - (unixMilliOfYearStartUTC 2024 - 8 * 3600000)) :=
  ⟨by decide, by decide,
    C10_epoch (GetInstance 1 1) Shared.init [1704067200000]
      { nextId := 120795955335168, err := none, inst := GetInstance 1 1,
        shared := { lastTimeStamp := 1704067200000, sequence := 0 }, clock := [] }
      (by decide) (by decide) rfl (by decide)⟩

/-- C11, as stated, fails: `GetInstance 1 2` stores workId 1 and dataCenterId 2;
its identifier at the reading 1704038400000 is 266240, whose datacenter field
`(id >> 17) & 31` is 2 (the second argument) and whose worker field
`(id >> 12) & 31` is 1 (the first argument). -/
theorem C11_counterexample :
    inWindow 1704038400000 ∧
    GetNextId (GetInstance 1 2) Shared.init [1704038400000]
      = some { nextId := 266240, err := none, inst := GetInstance 1 2,
               shared := { lastTimeStamp := 1704038400000, sequence := 0 }, clock := [] } ∧
    and64 (shr64 266240 17) 31 = 2 ∧ and64 (shr64 266240 12) 31 = 1 ∧
    ¬ (and64 (shr64 266240 17) 31 = 1 ∧ and64 (shr64 266240 12) 31 = 2) := by
  decide

/-- C11, amended (constructor argument order). For all `a` and `b` in `[0, 31]`,
every identifier successfully produced by the instance `GetInstance a b`, under
an effective clock reading inside the 41-bit window, carries the first argument
`a` (the workId) as its worker field, `(id >> 12) & 31 = a`, and the second
argument `b` (the dataCenterId) as its datacenter field, `(id >> 17) & 31 = b`. -/
theorem C11_argument_order (a b : Int) (ha0 : 0 ≤ a) (ha1 : a ≤ 31) (hb0 : 0 ≤ b)
    (hb1 : b ≤ 31) (g : Shared) (clock : List Int) (out : Outcome)
    (h : GetNextId (GetInstance a b) g clock = some out) (hok : out.err = none)
    (hwin : inWindow out.shared.lastTimeStamp) :
    and64 (shr64 out.nextId 12) 31 = a ∧ and64 (shr64 out.nextId 17) 31 = b := by
  obtain ⟨hv, hw, hd⟩ := GetInstance_valid a b ha0 ha1 hb0 hb1
  obtain ⟨_, h2, h3, _⟩ := decode_fields (GetInstance a b) g clock out hv h hok hwin
  rw [hd] at h2
  rw [hw] at h3
  exact ⟨h3, h2⟩

theorem C11_argument_order_witness :
    ((0 : Int) ≤ 1 ∧ (1 : Int) ≤ 31 ∧ (0 : Int) ≤ 2 ∧ (2 : Int) ≤ 31) ∧
    inWindow (Shared.mk 1704038400000 0).lastTimeStamp ∧
    (and64 (shr64 266240 12) 31 = 1 ∧ and64 (shr64 266240 17) 31 = 2) :=
  ⟨by decide, by decide,
    C11_argument_order 1 2 (by decide) (by decide) (by decide) (by decide) Shared.init
      [1704038400000]
      { nextId := 266240, err := none, inst := GetInstance 1 2,
        shared := { lastTimeStamp := 1704038400000, sequence := 0 }, clock := [] }
      (by decide) rfl (by decide)⟩

/-- C12, as stated, fails when a clock reading lies outside the window: on
`GetInstance 0 0` from the initial state, the readings 1704038400000 and
1704038400000 + 2^42 both yield the identifier 0, so two successful identifiers
have the timestamp field of `t = 1704038400000` and the same sequence field 0. -/
theorem C12_counterexample :
    (GetInstance 0 0).valid ∧ inWindow 1704038400000 ∧
    ((runCalls (fun _ => GetInstance 0 0) Shared.init [1704038400000, 6102084911104]
        [0, 0]).filter
      (fun o => decide (o.err = none ∧ shr64 o.nextId 22 = 1704038400000 - initialTimestamp))).map
        (fun o => and64 o.nextId 4095) = [0, 0] ∧
    ¬ (([0, 0] : List Int).Nodup) := by
  decide

/-- C12, amended (one budget per millisecond for the whole domain). For every
run of `GetNextId` calls from the initial state on any mix of instances built by
`GetInstance`, against clock readings that all lie in the 41-bit window, and for
every millisecond `t`: at most 4096 of the successfully returned identifiers
have timestamp field `t - 1704038400000`, and those carry pairwise different
sequence fields. -/
theorem C12_budget (workId dataCenterId : Nat → Int) (calls : List Nat) (clock : List Int)
    (hclock : ∀ r ∈ clock, inWindow r) (t : Int) :
    ((runCalls (fun k => GetInstance (workId k) (dataCenterId k)) Shared.init clock
        calls).filter
      (fun o => decide (o.err = none ∧ shr64 o.nextId 22 = t - initialTimestamp))).length
      ≤ 4096 ∧
    (((runCalls (fun k => GetInstance (workId k) (dataCenterId k)) Shared.init clock
        calls).filter
      (fun o => decide (o.err = none ∧ shr64 o.nextId 22 = t - initialTimestamp))).map
        (fun o => and64 o.nextId 4095)).Nodup := by
  have hwf : ∀ k, (GetInstance (workId k) (dataCenterId k)).wellFormed :=
    fun k => GetInstance_wellFormed (workId k) (dataCenterId k)
  have hok := runCalls_ok calls _ Shared.init clock hwf hclock
  have hlt := runCalls_pairwise_lt calls _ Shared.init clock hwf hclock
  generalize runCalls (fun k => GetInstance (workId k) (dataCenterId k)) Shared.init clock
    calls = outs at hok hlt ⊢
  have hsub : List.Sublist (outs.filter
      (fun o => decide (o.err = none ∧ shr64 o.nextId 22 = t - initialTimestamp))) outs :=
    List.filter_sublist outs
  have hfacts : ∀ o ∈ outs.filter
      (fun o => decide (o.err = none ∧ shr64 o.nextId 22 = t - initialTimestamp)),
      o.err = none ∧ o.shared.lastTimeStamp = t ∧ and64 o.nextId 4095 = o.shared.sequence ∧
      0 ≤ o.shared.sequence ∧ o.shared.sequence < 4096 := by
    intro o ho
    rw [List.mem_filter] at ho
    obtain ⟨hm, hd⟩ := ho
    simp only [decide_eq_true_eq] at hd
    obtain ⟨w1, w2, w3, w4, w5, w6⟩ := hok o hm hd.1
    have hts := hd.2
    unfold inWindow at w1
    rw [shr64_22, w4] at hts
    refine ⟨hd.1, by omega, ?_, w2, by omega⟩
    rw [and64_4095, w4]
    omega
  have hpw : List.Pairwise (fun a b : Int => a < b)
      ((outs.filter
        (fun o => decide (o.err = none ∧ shr64 o.nextId 22 = t - initialTimestamp))).map
          (fun o => and64 o.nextId 4095)) := by
    rw [List.pairwise_map]
    refine List.Pairwise.imp_of_mem ?_ (hlt.sublist hsub)
    intro a b ha hb hab
    obtain ⟨a1, a2, a3, _, _⟩ := hfacts a ha
    obtain ⟨b1, b2, b3, _, _⟩ := hfacts b hb
    have h := hab a1 b1
    unfold Shared.lt at h
    rw [a3, b3]
    omega
  constructor
  · have h := pairwise_lt_length_le _ 0 4096 (by norm_num) hpw (by
      intro x hx
      obtain ⟨o, ho, rfl⟩ := List.mem_map.mp hx
      obtain ⟨_, _, c3, c4, c5⟩ := hfacts o ho
      rw [c3]
      exact ⟨c4, c5⟩)
    rw [List.length_map] at h
    omega
  · exact hpw.imp (fun hab => ne_of_lt hab)

theorem C12_budget_witness :
    (∀ r ∈ [1704038400001, 1704038400001, 1704038400002], inWindow r) ∧
    (((runCalls (fun k => GetInstance ((fun _ : Nat => (1 : Int)) k) ((fun j : Nat => (j : Int)) k))
        Shared.init [1704038400001, 1704038400001, 1704038400002] [0, 1, 2]).filter
      (fun o => decide (o.err = none ∧ shr64 o.nextId 22 = 1704038400001 - initialTimestamp))).length
      ≤ 4096 ∧
    (((runCalls (fun k => GetInstance ((fun _ : Nat => (1 : Int)) k) ((fun j : Nat => (j : Int)) k))
        Shared.init [1704038400001, 1704038400001, 1704038400002] [0, 1, 2]).filter
      (fun o => decide (o.err = none ∧ shr64 o.nextId 22 = 1704038400001 - initialTimestamp))).map
        (fun o => and64 o.nextId 4095)).Nodup) :=
  ⟨by decide, C12_budget (fun _ => 1) (fun j => (j : Int)) [0, 1, 2]
    [1704038400001, 1704038400001, 1704038400002] (by decide) 1704038400001⟩

/-- C13 (shared bookkeeping across instances). For valid instances `A` and `B`,
whatever their coordinates: if a successful `GetNextId` call on `A` leaves the
package state `(lastTimeStamp = t, sequence = k)` with `k < 4095` and the next
call, on `B`, reads the clock as `t`, then that call succeeds, its identifier has
sequence field `k + 1` (not 0), and the state becomes `(t, k + 1)`. -/
theorem C13_shared_bookkeeping (A B : Snowflake) (hA : A.valid) (hB : B.valid) (g : Shared)
    (clock : List Int) (oA : Outcome) (t k : Int) (rest : List Int)
    (hcall : GetNextId A g clock = some oA) (hok : oA.err = none)
    (hstate : oA.shared = { lastTimeStamp := t, sequence := k }) (hk : k < 4095)
    (hread : oA.clock = t :: rest) :
    GetNextId B oA.shared oA.clock
      = some { nextId := assemble t B (k + 1), err := none, inst := B,
               shared := { lastTimeStamp := t, sequence := k + 1 }, clock := rest } ∧
    and64 (assemble t B (k + 1)) 4095 = k + 1 ∧ k + 1 ≠ 0 := by
  obtain ⟨_, _, _, h0, _, _, _⟩ := GetNextId_success A g clock oA hcall hok
  have hA' := hA.1
  rw [hstate] at h0
  simp only at h0
  rw [hstate, hread]
  exact ⟨GetNextId_same B t k rest hB.1 h0 hk, assemble_low t B (k + 1) (by omega) (by omega),
    by omega⟩

theorem C13_shared_bookkeeping_witness :
    (GetInstance 1 1).valid ∧ (GetInstance 10 10).valid ∧ (7 : Int) < 4095 ∧
    (GetNextId (GetInstance 10 10) (Shared.mk 1704038400005 7) [1704038400005, 1704038400009]
      = some { nextId := assemble 1704038400005 (GetInstance 10 10) (7 + 1), err := none,
               inst := GetInstance 10 10,
               shared := { lastTimeStamp := 1704038400005, sequence := 7 + 1 },
               clock := [1704038400009] } ∧
    and64 (assemble 1704038400005 (GetInstance 10 10) (7 + 1)) 4095 = 7 + 1 ∧
    (7 : Int) + 1 ≠ 0) :=
  ⟨by decide, by decide, by decide,
    C13_shared_bookkeeping (GetInstance 1 1) (GetInstance 10 10) (by decide) (by decide)
      { lastTimeStamp := 1704038400005, sequence := 6 }
      [1704038400005, 1704038400005, 1704038400009]
      { nextId := assemble 1704038400005 (GetInstance 1 1) 7, err := none,
        inst := GetInstance 1 1,
        shared := { lastTimeStamp := 1704038400005, sequence := 7 },
        clock := [1704038400005, 1704038400009] }
      1704038400005 7 [1704038400009] (by decide) rfl rfl (by decide) rfl⟩

/-- The first `N` readings of a stream, split at position `n < N`. -/
theorem stream_prefix_split (stream : Nat → Int) (n N : Nat) (h : n < N) :
    (List.range N).map stream
      = (List.range n).map stream ++ stream n :: ((List.range N).map stream).drop (n + 1) := by
  have hlen : n < ((List.range N).map stream).length := by simp [h]
  have h1 := List.take_append_drop n ((List.range N).map stream)
  rw [List.drop_eq_getElem_cons hlen, List.getElem_map, List.getElem_range, ← List.map_take,
    List.take_range, Nat.min_eq_left (Nat.le_of_lt h)] at h1
  exact h1.symm

/-- C14 (busy-wait termination). For every `lastTimeStamp` and every stream of
clock readings that contains a reading greater than `lastTimeStamp`, there is a
first such reading, at position `n`; on every prefix of the stream that reaches
it, `nextMilli` returns: it consumes the readings up to and including position
`n`, returns that reading, which is greater than `lastTimeStamp`, and leaves the
readings after it.  (`nextMilli` only reads `lastTimeStamp`; it returns nothing
but the reading and the rest of the clock.) -/
theorem C14_busy_wait (lastTimeStamp : Int) (stream : Nat → Int)
    (h : ∃ m, lastTimeStamp < stream m) :
    ∃ n, lastTimeStamp < stream n ∧ (∀ j, j < n → stream j ≤ lastTimeStamp) ∧
      ∀ N, n < N →
        nextMilli lastTimeStamp ((List.range N).map stream)
          = some (stream n, ((List.range N).map stream).drop (n + 1)) := by
  refine ⟨Nat.find h, Nat.find_spec h, ?_, ?_⟩
  · intro j hj
    have := Nat.find_min h hj
    omega
  · intro N hN
    have key := nextMilli_skip lastTimeStamp ((List.range (Nat.find h)).map stream)
      (stream (Nat.find h)) (((List.range N).map stream).drop (Nat.find h + 1))
      (by
        intro x hx
        obtain ⟨j, hj, rfl⟩ := List.mem_map.mp hx
        have := Nat.find_min h (List.mem_range.mp hj)
        omega)
      (Nat.find_spec h)
    rw [← stream_prefix_split stream (Nat.find h) N hN] at key
    exact key

theorem C14_busy_wait_witness :
    (∃ m, (1704038400005 : Int) < (fun i : Nat => 1704038400003 + (i : Int)) m) ∧
    (∃ n, (1704038400005 : Int) < (fun i : Nat => 1704038400003 + (i : Int)) n ∧
      (∀ j, j < n → (fun i : Nat => 1704038400003 + (i : Int)) j ≤ 1704038400005) ∧
      ∀ N, n < N →
        nextMilli 1704038400005
            ((List.range N).map (fun i : Nat => 1704038400003 + (i : Int)))
          = some ((fun i : Nat => 1704038400003 + (i : Int)) n,
              ((List.range N).map (fun i : Nat => 1704038400003 + (i : Int))).drop (n + 1))) :=
  ⟨⟨3, by decide⟩,
    C14_busy_wait 1704038400005 (fun i : Nat => 1704038400003 + (i : Int)) ⟨3, by decide⟩⟩

/-- Along a run the sequence stays in `[0, 4095]` and `lastTimeStamp` never
decreases, for every store of instances and every clock. -/
theorem runCalls_state (calls : List Nat) :
    ∀ (insts : Nat → Snowflake) (g : Shared) (clock : List Int),
      0 ≤ g.sequence → g.sequence ≤ 4095 →
      (∀ o ∈ runCalls insts g clock calls, 0 ≤ o.shared.sequence ∧ o.shared.sequence ≤ 4095) ∧
      List.Chain (fun a b : Shared => a.lastTimeStamp ≤ b.lastTimeStamp) g
        ((runCalls insts g clock calls).map (fun o => o.shared)) := by
  induction calls with
  | nil => intro insts g clock _ _; simp [runCalls]
  | cons i rest ih =>
    intro insts g clock hg0 hg1
    unfold runCalls
    cases h : GetNextId (insts i) g clock with
    | none => simp
    | some out =>
      simp only
      obtain ⟨s1, s2, s3, _, _⟩ := GetNextId_state _ g clock out hg0 hg1 h
      obtain ⟨t1, t2⟩ := ih (Function.update insts i out.inst) out.shared out.clock s1 s2
      constructor
      · intro o ho
        rcases List.mem_cons.mp ho with rfl | ho
        · exact ⟨s1, s2⟩
        · exact t1 o ho
      · rw [List.map_cons]
        exact List.Chain.cons s3 t2

/-- C16 (state invariant). Starting from the initial state, after every
`GetNextId` call of a run on any instances (valid or error-carrying, succeeding
or failing) and for every list of clock readings, also ones that go backward,
the shared sequence is in `[0, 4095]`, and the `lastTimeStamp` a call leaves is
not below the `lastTimeStamp` before it (the one the previous call left, or the
initial one). -/
theorem C16_state_invariant (insts : Nat → Snowflake) (clock : List Int) (calls : List Nat) :
    (∀ o ∈ runCalls insts Shared.init clock calls,
      0 ≤ o.shared.sequence ∧ o.shared.sequence ≤ 4095) ∧
    List.Chain (fun a b : Shared => a.lastTimeStamp ≤ b.lastTimeStamp) Shared.init
      ((runCalls insts Shared.init clock calls).map (fun o => o.shared)) :=
  runCalls_state calls insts Shared.init clock (by decide) (by decide)

/-- C17 (new-millisecond step). For a valid instance with stored fields
`d = dataCenterId`, `w = workId` and every package state, if the clock reading
`now` is above `lastTimeStamp`, `GetNextId` succeeds after that single reading,
sets the state to `(now, 0)` and returns exactly
`((now - 1704038400000) << 22) | (d << 17) | (w << 12)`, whose sequence field
is 0. -/
theorem C17_new_milli (s : Snowflake) (hs : s.valid) (g : Shared) (now : Int)
    (rest : List Int) (hnow : g.lastTimeStamp < now) :
    GetNextId s g (now :: rest)
      = some { nextId := or64 (or64 (shl64 (sub64 now 1704038400000) 22)
                 (shl64 s.dataCenterId 17)) (shl64 s.workId 12),
               err := none, inst := s,
               shared := { lastTimeStamp := now, sequence := 0 }, clock := rest } ∧
    and64 (or64 (or64 (shl64 (sub64 now 1704038400000) 22) (shl64 s.dataCenterId 17))
      (shl64 s.workId 12)) 4095 = 0 := by
  have e : assemble now s 0 = or64 (or64 (shl64 (sub64 now 1704038400000) 22)
      (shl64 s.dataCenterId 17)) (shl64 s.workId 12) := by
    unfold assemble
    rw [or64_zero _ (or64_isInt64 _ _), timestampShift_eq, dataCenterIdShift_eq,
      workerIdShift_eq]
    rfl
  rw [← e]
  exact ⟨GetNextId_new s g now rest hs.1 hnow, assemble_low now s 0 (le_refl 0) (by norm_num)⟩

theorem C17_new_milli_witness :
    (GetInstance 3 7).valid ∧
    (Shared.mk 1704038400005 99).lastTimeStamp < 1704038400006 ∧
    (GetNextId (GetInstance 3 7) (Shared.mk 1704038400005 99) (1704038400006 :: [])
      = some { nextId := or64 (or64 (shl64 (sub64 1704038400006 1704038400000) 22)
                 (shl64 (GetInstance 3 7).dataCenterId 17)) (shl64 (GetInstance 3 7).workId 12),
               err := none, inst := GetInstance 3 7,
               shared := { lastTimeStamp := 1704038400006, sequence := 0 }, clock := [] } ∧
    and64 (or64 (or64 (shl64 (sub64 1704038400006 1704038400000) 22)
      (shl64 (GetInstance 3 7).dataCenterId 17)) (shl64 (GetInstance 3 7).workId 12)) 4095 = 0) :=
  ⟨by decide, by decide,
    C17_new_milli (GetInstance 3 7) (by decide) (Shared.mk 1704038400005 99) 1704038400006 []
      (by decide)⟩

/-- C18, as stated, fails for a clock reading outside the window: on
`GetInstance 0 0` from the initial state the reading 1704038400000 + 2^41
succeeds and leaves `lastTimeStamp = 3903061655552`, but the timestamp field
`id >> 22` of the identifier returned is `-2^41`, not `2^41`. -/
theorem C18_counterexample :
    (GetInstance 0 0).valid ∧ 0 ≤ Shared.init.sequence ∧ Shared.init.sequence ≤ 4095 ∧
    ((GetNextId (GetInstance 0 0) Shared.init [3903061655552]).map
      (fun o => (o.err, o.shared.lastTimeStamp - initialTimestamp, shr64 o.nextId 22)))
      = some (none, 2199023255552, -2199023255552) := by
  decide

/-- C18, amended (strict lexicographic progress). For a valid instance, every
package state with `0 <= sequence <= 4095` and every clock, a successful
`GetNextId` call leaves `(lastTimeStamp, sequence)` strictly greater in
lexicographic order than before, the sequence field of the identifier is the new
sequence, and, when the new `lastTimeStamp` lies in the 41-bit window, the
timestamp field is the new `lastTimeStamp - 1704038400000`; a failing call
leaves the pair unchanged. -/
theorem C18_lex_progress (s : Snowflake) (hs : s.valid) (g : Shared) (hg0 : 0 ≤ g.sequence)
    (hg1 : g.sequence ≤ 4095) (clock : List Int) (out : Outcome)
    (h : GetNextId s g clock = some out) :
    (out.err = none →
      g.lt out.shared ∧ and64 out.nextId 4095 = out.shared.sequence ∧
      (inWindow out.shared.lastTimeStamp →
        shr64 out.nextId 22 = out.shared.lastTimeStamp - initialTimestamp)) ∧
    (out.err ≠ none → out.shared = g) := by
  obtain ⟨_, _, _, s4, s5⟩ := GetNextId_state s g clock out hg0 hg1 h
  refine ⟨fun hok => ⟨s4 hok, ?_, fun hwin => (decode_fields s g clock out hs h hok hwin).1⟩, s5⟩
  obtain ⟨_, _, _, t4, t5, t6, _⟩ := GetNextId_success s g clock out h hok
  rw [t6]
  exact assemble_low _ s _ t4 t5

theorem C18_lex_progress_witness :
    (GetInstance 1 1).valid ∧ (0 : Int) ≤ (Shared.mk 1704038400005 4095).sequence ∧
    (Shared.mk 1704038400005 4095).sequence ≤ 4095 ∧
    ((none : Option GoError) = none →
      (Shared.mk 1704038400005 4095).lt (Shared.mk 1704038400008 0) ∧
      and64 33689600 4095 = 0 ∧
      (inWindow (Shared.mk 1704038400008 0).lastTimeStamp →
        shr64 33689600 22 = 1704038400008 - initialTimestamp)) ∧
    ((none : Option GoError) ≠ none →
      Shared.mk 1704038400008 0 = Shared.mk 1704038400005 4095) :=
  ⟨by decide, by decide, by decide,
    C18_lex_progress (GetInstance 1 1) (by decide) (Shared.mk 1704038400005 4095) (by decide)
      (by decide) [1704038400005, 1704038400004, 1704038400008, 1704038400009]
      { nextId := 33689600, err := none, inst := GetInstance 1 1,
        shared := { lastTimeStamp := 1704038400008, sequence := 0 },
        clock := [1704038400009] }
      (by decide)⟩

/-- C19 (monotonicity for one coordinate pair). In every run of `GetNextId`
calls from any package state, on any mix of instances built by `GetInstance`,
with every clock reading in the 41-bit window: of two successful calls made on
instances with the same `(workId, dataCenterId) = (w, d)`, whatever calls on
other instances lie between them, the later one returns the greater identifier. -/
theorem C19_monotone_same_coords (workId dataCenterId : Nat → Int) (g : Shared)
    (calls : List Nat) (clock : List Int) (hclock : ∀ r ∈ clock, inWindow r) (w d : Int) :
    List.Pairwise
      (fun a b : Outcome => a.err = none → b.err = none →
        a.inst.workId = w → a.inst.dataCenterId = d →
        b.inst.workId = w → b.inst.dataCenterId = d → a.nextId < b.nextId)
      (runCalls (fun k => GetInstance (workId k) (dataCenterId k)) g clock calls) := by
  have hwf : ∀ k, (GetInstance (workId k) (dataCenterId k)).wellFormed :=
    fun k => GetInstance_wellFormed (workId k) (dataCenterId k)
  have hok := runCalls_ok calls _ g clock hwf hclock
  refine List.Pairwise.imp_of_mem ?_ (runCalls_pairwise_lt calls _ g clock hwf hclock)
  intro a b ha hb hab oka okb aw ad bw bd
  obtain ⟨a1, a2, a3, a4, _, _⟩ := hok a ha oka
  obtain ⟨b1, b2, b3, b4, _, _⟩ := hok b hb okb
  have hlt := hab oka okb
  unfold Shared.lt at hlt
  unfold inWindow at a1 b1
  unfold Snowflake.coords at a4 b4
  rw [a4, b4, aw, ad, bw, bd]
  omega

theorem C19_monotone_same_coords_witness :
    (∀ r ∈ [1704038400005, 1704038400005, 1704038400005, 1704038400006], inWindow r) ∧
    List.Pairwise
      (fun a b : Outcome => a.err = none → b.err = none →
        a.inst.workId = 9 → a.inst.dataCenterId = 9 →
        b.inst.workId = 9 → b.inst.dataCenterId = 9 → a.nextId < b.nextId)
      (runCalls (fun k => GetInstance ((fun k : Nat => if k = 1 then 1 else 9) k)
          ((fun k : Nat => if k = 1 then 1 else 9) k))
        Shared.init [1704038400005, 1704038400005, 1704038400005, 1704038400006]
        [0, 1, 2, 0]) :=
  ⟨by decide,
    C19_monotone_same_coords (fun k => if k = 1 then 1 else 9) (fun k => if k = 1 then 1 else 9)
      Shared.init [0, 1, 2, 0] [1704038400005, 1704038400005, 1704038400005, 1704038400006]
      (by decide) 9 9⟩

/-- C20 (derived layout constants). With int64 two's-complement arithmetic,
`-1 ^ (-1 << n)` is `2^n - 1` for `n = 5` and `n = 12`, so `maxWorkerId = 31`,
`maxDataCenterId = 31`, `maxSequence = 4095`; the shifts are 12, 17 and 22; the
four fields, shifted into place, occupy exactly the bits 0-11, 12-16, 17-21 and
22-62, which are pairwise disjoint and leave bit 63 free; and the widths add up
to `1 + 41 + 5 + 5 + 12 = 64`. -/
theorem C20_layout_constants :
    (xor64 (-1) (shl64 (-1) 5) = 2 ^ 5 - 1 ∧ xor64 (-1) (shl64 (-1) 12) = 2 ^ 12 - 1) ∧
    (maxWorkerId = 31 ∧ maxDataCenterId = 31 ∧ maxSequence = 4095) ∧
    (workerIdShift = 12 ∧ dataCenterIdShift = 17 ∧ timestampShift = 22) ∧
    (∀ i, i < 64 → (toU64 maxSequence).testBit i = decide (i ≤ 11)) ∧
    (∀ i, i < 64 →
      (toU64 (shl64 maxWorkerId workerIdShift)).testBit i = decide (12 ≤ i ∧ i ≤ 16)) ∧
    (∀ i, i < 64 →
      (toU64 (shl64 maxDataCenterId dataCenterIdShift)).testBit i
        = decide (17 ≤ i ∧ i ≤ 21)) ∧
    (∀ i, i < 64 →
      (toU64 (shl64 (2 ^ 41 - 1) timestampShift)).testBit i = decide (22 ≤ i ∧ i ≤ 62)) ∧
    (1 + 41 + dataCenterIdBits + workerIdBits + sequenceBits = 64 ∧
      timestampShift + 41 = 63) := by
  refine ⟨by decide, by decide, by decide, ?_, ?_, ?_, ?_, by decide⟩
  · decide
  · decide
  · decide
  · decide

end SnowflakeGo
